import Mathlib

/-!
# simpleFFplay: packet queue (src/packet.c), clocks and pause/seek (src/player.c)

A shallow embedding of the packet queue of `src/packet.c` and of the clock,
pause and seek functions of `src/player.c`.

* The queue is a singly linked list of heap nodes; the node memory is an
  explicit finite store (`Heap`) and pointers are `Option Nat` (`none` is
  `NULL`).  Reading or writing through a pointer that is not live makes the
  operation return `none` (the C program has no defined behaviour there).
* C `int` fields are integers reduced to 32 bit two's complement after each
  arithmetic step (`wrap32`).
* The results of the allocator (`av_malloc`, `av_packet_alloc`), of
  `SDL_CreateMutex` / `SDL_CreateCond` and of `SDL_CondWaitTimeout` are inputs
  of the operations.  A call of `SDL_CondWaitTimeout` releases the mutex, so
  the other threads may change the queue meanwhile: each such call consumes
  one entry `(return value, state seen when the mutex is re-acquired)` of the
  environment list `env` given to `packet_queue_get`.
* C `double` is IEEE 754 binary64 (`Double`): NaN, the two infinities and the
  finite values, with addition, subtraction and multiplication rounded to
  nearest, ties to even.
* Every read of the wall clock (`av_gettime_relative() / 1000000.0`) is an
  input of the function that performs it, and so is the value read through a
  clock's `queue_serial` pointer.
-/

namespace SimpleFFplay

/-! ## Machine integers -/

/-- Reduction of an integer to the range of a 32 bit C `int`. -/
def wrap32 (x : Int) : Int := (x + 2147483648) % 4294967296 - 2147483648

/-- The values a C `int` can hold. -/
def inInt (x : Int) : Prop := -2147483648 ≤ x ∧ x ≤ 2147483647

instance (x : Int) : Decidable (inInt x) := by unfold inInt; infer_instance

/-- The errno value `ENOMEM` of `<errno.h>`. -/
def ENOMEM : Int := 12

/-- The libavutil helper `AVERROR(e)`, which negates a POSIX error code. -/
def AVERROR (e : Int) : Int := -e

/-- The libavcodec constant `AV_NOPTS_VALUE` (`INT64_MIN`). -/
def AV_NOPTS_VALUE : Int := -9223372036854775808

/-! ## Data model -/

/-- The fields of libavcodec's `AVPacket` (the data pointer is an address). -/
structure AVPacket where
  data : Option Nat
  size : Int
  stream_index : Int
  pts : Int
  dts : Int
  flags : Int
  duration : Int
  pos : Int
deriving DecidableEq, Repr

/-- The packet that `av_packet_alloc` returns and that `av_packet_move_ref`
leaves in its source: every field at its default. -/
def av_packet_defaults : AVPacket :=
  { data := none, size := 0, stream_index := 0, pts := AV_NOPTS_VALUE,
    dts := AV_NOPTS_VALUE, flags := 0, duration := 0, pos := -1 }

/-- A list node: `pkt` is the packet the node owns (in C a pointer to a packet
allocated together with the node), `next` the address of the next node. -/
structure packet_listnode_t where
  pkt : AVPacket
  next : Option Nat
deriving DecidableEq, Repr

/-- The node memory: the live nodes with their addresses. -/
structure Heap where
  cells : List (Nat × packet_listnode_t)
deriving DecidableEq, Repr

/-- Read the node at address `a`; `none` when `a` is not live. -/
def Heap.read (h : Heap) (a : Nat) : Option packet_listnode_t :=
  (h.cells.find? (fun c => c.1 == a)).map Prod.snd

/-- Release the node at address `a` (`av_free`). -/
def Heap.free (h : Heap) (a : Nat) : Heap :=
  ⟨h.cells.filter (fun c => !(c.1 == a))⟩

/-- Store `nd` at address `a`. -/
def Heap.write (h : Heap) (a : Nat) (nd : packet_listnode_t) : Heap :=
  ⟨(a, nd) :: (h.free a).cells⟩

/-- The fields of `packet_queue_t` that `src/packet.c` and `src/player.c`
use; `mutex` and `cond` are the SDL handles. -/
structure packet_queue_t where
  first_pkt : Option Nat
  last_pkt : Option Nat
  nb_packets : Int
  size : Int
  duration : Int
  abort_request : Int
  serial : Int
  mutex : Option Nat
  cond : Option Nat
deriving DecidableEq, Repr

/-- A queue together with the node memory its pointers refer to. -/
structure State where
  q : packet_queue_t
  heap : Heap
deriving DecidableEq, Repr

/-- The result of `memset(q, 0, sizeof(packet_queue_t))`. -/
def zeroed : packet_queue_t :=
  { first_pkt := none, last_pkt := none, nb_packets := 0, size := 0,
    duration := 0, abort_request := 0, serial := 0, mutex := none, cond := none }

/-! ## Operations -/

/-- The function `packet_queue_init`; `mutex` and `cond` are what
`SDL_CreateMutex` and `SDL_CreateCond` return (`none` for `NULL`). -/
def packet_queue_init (s : State) (mutex cond : Option Nat) : Int × State :=
  let q1 : packet_queue_t := { zeroed with mutex := mutex }
  if q1.mutex = none then (AVERROR ENOMEM, ⟨q1, s.heap⟩)
  else
    let q2 : packet_queue_t := { q1 with cond := cond }
    if q2.cond = none then (AVERROR ENOMEM, ⟨q2, s.heap⟩)
    else (0, ⟨{ q2 with abort_request := 0 }, s.heap⟩)

/-- The function `packet_queue_put`.  `node` is the result of `av_malloc`
(the address of the new node, `none` for `NULL`) and `pkt_ok` tells whether
`av_packet_alloc` succeeds.  Returns the return value, the new state and the
caller's packet, which `av_packet_move_ref` resets. -/
def packet_queue_put (s : State) (pkt : AVPacket) (node : Option Nat) (pkt_ok : Bool) :
    Option (Int × State × AVPacket) :=
  match node with
  | none => some (-1, s, pkt)
  | some n =>
    if pkt_ok = false then some (-1, s, pkt)
    else
      let h1 := s.heap.write n ⟨pkt, none⟩
      let linked : Option (Option Nat × Heap) :=
        match s.q.last_pkt with
        | none => some (some n, h1)
        | some l =>
          match h1.read l with
          | none => none
          | some nd => some (s.q.first_pkt, h1.write l { nd with next := some n })
      match linked with
      | none => none
      | some (first, h2) =>
        let q1 : packet_queue_t := { s.q with first_pkt := first, last_pkt := some n }
        let q2 : packet_queue_t := { q1 with nb_packets := wrap32 (q1.nb_packets + 1) }
        let q3 : packet_queue_t := { q2 with size := wrap32 (q2.size + pkt.size) }
        some (0, ⟨q3, h2⟩, av_packet_defaults)

/-- The inner loop of `packet_queue_get`:
`while (signaled && !q->abort_request) signaled = SDL_CondWaitTimeout(...)`.
Returns the state at loop exit and the unused environment, `none` when the
thread is still waiting at the end of the environment. -/
def cond_wait_loop : Int → State → List (Int × State) → Option (State × List (Int × State))
  | signaled, s, env =>
    if signaled ≠ 0 ∧ s.q.abort_request = 0 then
      match env with
      | [] => none
      | (r, s1) :: rest => cond_wait_loop r s1 rest
    else some (s, env)

/-- The `while (1)` loop of `packet_queue_get`, with `fuel` iterations. -/
def packet_queue_get_loop :
    Nat → State → AVPacket → Int → List (Int × State) → Option (Int × State × AVPacket)
  | 0, _, _, _, _ => none
  | fuel + 1, s, pkt, block, env =>
    match s.q.first_pkt with
    | some p =>
      match s.heap.read p with
      | none => none
      | some nd =>
        let q1 : packet_queue_t := { s.q with first_pkt := nd.next }
        let q2 : packet_queue_t := if q1.first_pkt = none then { q1 with last_pkt := none } else q1
        let q3 : packet_queue_t := { q2 with nb_packets := wrap32 (q2.nb_packets - 1) }
        let q4 : packet_queue_t := { q3 with size := wrap32 (q3.size - nd.pkt.size) }
        some (1, ⟨q4, s.heap.free p⟩, nd.pkt)
    | none =>
      if block = 0 then some (0, s, pkt)
      else
        match cond_wait_loop 1 s env with
        | none => none
        | some (s1, rest) =>
          if s1.q.abort_request ≠ 0 then some (-1, s1, pkt)
          else packet_queue_get_loop fuel s1 pkt block rest

/-- The function `packet_queue_get`.  Every iteration of the outer loop that
does not return consumes an entry of `env`, so `env.length + 1` iterations
are enough.  Returns the return value, the new state and the caller's output
packet. -/
def packet_queue_get (s : State) (pkt : AVPacket) (block : Int) (env : List (Int × State)) :
    Option (Int × State × AVPacket) :=
  packet_queue_get_loop (env.length + 1) s pkt block env

/-- The function `packet_queue_put_nullpacket`; `tmp_ok` tells whether its own
`av_packet_alloc` succeeds (the result is dereferenced unchecked), `node` and
`pkt_ok` are passed to `packet_queue_put`. -/
def packet_queue_put_nullpacket (s : State) (stream_index : Int) (tmp_ok : Bool)
    (node : Option Nat) (pkt_ok : Bool) : Option (Int × State) :=
  if tmp_ok = false then none
  else
    let pkt : AVPacket :=
      { av_packet_defaults with data := none, size := 0, stream_index := stream_index }
    match packet_queue_put s pkt node pkt_ok with
    | none => none
    | some (ret, s1, _) => some (ret, s1)

/-- The `for` loop of `packet_queue_flush`: walk the list from `p` and release
every node. -/
def flush_loop : Nat → Option Nat → Heap → Option Heap
  | 0, _, _ => none
  | _ + 1, none, h => some h
  | fuel + 1, some a, h =>
    match h.read a with
    | none => none
    | some nd => flush_loop fuel nd.next (h.free a)

/-- The function `packet_queue_flush`.  Every iteration releases a live node,
so one more iteration than there are live nodes is enough. -/
def packet_queue_flush (s : State) : Option State :=
  match flush_loop (s.heap.cells.length + 1) s.q.first_pkt s.heap with
  | none => none
  | some h =>
    some ⟨{ s.q with last_pkt := none, first_pkt := none, nb_packets := 0, size := 0,
                     duration := 0 }, h⟩

/-- The function `packet_queue_abort`. -/
def packet_queue_abort (s : State) : State :=
  { s with q := { s.q with abort_request := 1 } }

/-! ## The list a queue holds -/

/-- The list segment of the heap that starts at pointer `p`, runs through the
nodes `l` (address and packet, in order) and ends with the pointer `e`. -/
def Seg (h : Heap) : Option Nat → List (Nat × AVPacket) → Option Nat → Prop
  | p, [], e => p = e
  | p, (a, u) :: rest, e =>
    p = some a ∧ (h.read a).map (fun nd => nd.pkt) = some u ∧
      Seg h ((h.read a).bind (fun nd => nd.next)) rest e

instance Seg.decidable (h : Heap) :
    (p : Option Nat) → (l : List (Nat × AVPacket)) → (e : Option Nat) → Decidable (Seg h p l e)
  | p, [], e => by unfold Seg; infer_instance
  | p, (a, u) :: rest, e => by
    unfold Seg
    have := Seg.decidable h ((h.read a).bind (fun nd => nd.next)) rest e
    infer_instance

/-- The queue `s` holds the nodes `l`: they are the null-terminated list that
starts at `first_pkt`, and `last_pkt` is the last of them (null when there is
none). -/
def Queued (s : State) (l : List (Nat × AVPacket)) : Prop :=
  Seg s.heap s.q.first_pkt l none ∧ s.q.last_pkt = l.getLast?.map Prod.fst

instance (s : State) (l : List (Nat × AVPacket)) : Decidable (Queued s l) := by
  unfold Queued; infer_instance

/-- The sum of the sizes of the units of `l`. -/
def total_size (l : List (Nat × AVPacket)) : Int := (l.map (fun c => c.2.size)).sum

/-- Well-formedness of a queue: `nb_packets` is the number of nodes reachable
from `first_pkt`, `last_pkt` is the last node of that list, and `size` is the
sum of the sizes of the queued units. -/
def WellFormed (s : State) : Prop :=
  ∃ l, Queued s l ∧ s.q.nb_packets = (l.length : Int) ∧ s.q.size = total_size l

/-- Addresses of the nodes of a list. -/
def addrs (l : List (Nat × AVPacket)) : List Nat := l.map Prod.fst

/-- Packets of the nodes of a list, in order. -/
def units (l : List (Nat × AVPacket)) : List AVPacket := l.map Prod.snd

/-- The fields of the queue that are no list bookkeeping. -/
def same_control (q1 q2 : packet_queue_t) : Prop :=
  q2.duration = q1.duration ∧ q2.abort_request = q1.abort_request ∧
    q2.serial = q1.serial ∧ q2.mutex = q1.mutex ∧ q2.cond = q1.cond

instance (q1 q2 : packet_queue_t) : Decidable (same_control q1 q2) := by
  unfold same_control; infer_instance

/-- The signed arithmetic of a `packet_queue_put` of `pkt` stays in range. -/
def put_in_range (s : State) (pkt : AVPacket) : Prop :=
  inInt (s.q.nb_packets + 1) ∧ inInt (s.q.size + pkt.size)

instance (s : State) (pkt : AVPacket) : Decidable (put_in_range s pkt) := by
  unfold put_in_range; infer_instance

/-- The signed arithmetic of a `packet_queue_get` that removes the first node
of `s` stays in range. -/
def get_in_range (s : State) : Prop :=
  match s.q.first_pkt.bind s.heap.read with
  | none => True
  | some nd => inInt (s.q.nb_packets - 1) ∧ inInt (s.q.size - nd.pkt.size)

instance (s : State) : Decidable (get_in_range s) := by
  unfold get_in_range
  cases s.q.first_pkt.bind s.heap.read <;> infer_instance

/-! ## Sequences of calls -/

/-- A run of `packet_queue_put` calls, one for each unit of `items`, each with
the node address the allocator hands out for it; all allocations succeed.
Returns the return values and the final state. -/
def put_all : State → List (Nat × AVPacket) → Option (List Int × State)
  | s, [] => some ([], s)
  | s, (n, u) :: rest =>
    match packet_queue_put s u (some n) true with
    | none => none
    | some (r, s1, _) =>
      match put_all s1 rest with
      | none => none
      | some (rs, s2) => some (r :: rs, s2)

/-- The arguments of one `packet_queue_get` call: the caller's output packet,
the `block` flag and the environment. -/
structure GetCall where
  out : AVPacket
  block : Int
  env : List (Int × State)

/-- A run of `packet_queue_get` calls.  Returns, for every call, the return
value and the caller's output packet, and the final state. -/
def get_all : State → List GetCall → Option (List (Int × AVPacket) × State)
  | s, [] => some ([], s)
  | s, c :: rest =>
    match packet_queue_get s c.out c.block c.env with
    | none => none
    | some (r, s1, u) =>
      match get_all s1 rest with
      | none => none
      | some (rs, s2) => some ((r, u) :: rs, s2)

/-! ## Concrete states -/

/-- A unit of 10 bytes. -/
def unitA : AVPacket := { av_packet_defaults with data := some 4096, size := 10 }

/-- A unit of 20 bytes of stream 1. -/
def unitB : AVPacket :=
  { av_packet_defaults with data := some 8192, size := 20, stream_index := 1 }

/-- A freshly initialised queue over an empty node memory. -/
def fresh_state : State := ⟨{ zeroed with mutex := some 1, cond := some 2 }, ⟨[]⟩⟩

/-- The queue that holds `unitA` in a node at address 7. -/
def one_unit_state : State :=
  ⟨{ zeroed with first_pkt := some 7, last_pkt := some 7, nb_packets := 1, size := 10,
                 mutex := some 1, cond := some 2 },
   ⟨[(7, ⟨unitA, none⟩)]⟩⟩

/-- The queue that holds `unitA` (node 7) and then `unitB` (node 3). -/
def two_unit_state : State :=
  ⟨{ zeroed with first_pkt := some 7, last_pkt := some 3, nb_packets := 2, size := 30,
                 mutex := some 1, cond := some 2 },
   ⟨[(7, ⟨unitA, some 3⟩), (3, ⟨unitB, none⟩)]⟩⟩

/-- The queue that holds `unitB` in a node at address 3. -/
def unitB_state : State :=
  ⟨{ zeroed with first_pkt := some 3, last_pkt := some 3, nb_packets := 1, size := 20,
                 mutex := some 1, cond := some 2 },
   ⟨[(3, ⟨unitB, none⟩)]⟩⟩

/-- A queue is empty with its counters at zero. -/
def EmptyQueue (s : State) : Prop :=
  s.q.first_pkt = none ∧ s.q.last_pkt = none ∧ s.q.nb_packets = 0 ∧ s.q.size = 0

instance (s : State) : Decidable (EmptyQueue s) := by
  unfold EmptyQueue; infer_instance

/-! ## Runs of arbitrary queue operations -/

/-- One call of an operation of the queue, with its arguments. -/
inductive QueueOp where
  | put (pkt : AVPacket) (node : Option Nat) (pkt_ok : Bool)
  | put_nullpacket (stream_index : Int) (tmp_ok : Bool) (node : Option Nat) (pkt_ok : Bool)
  | get (out : AVPacket) (block : Int) (env : List (Int × State))
  | flush
  | abort

/-- The state after one call; `none` when the call does not return. -/
def apply_op (s : State) : QueueOp → Option State
  | .put pkt node pkt_ok => (packet_queue_put s pkt node pkt_ok).map (fun r => r.2.1)
  | .put_nullpacket stream_index tmp_ok node pkt_ok =>
    (packet_queue_put_nullpacket s stream_index tmp_ok node pkt_ok).map (fun r => r.2)
  | .get out block env => (packet_queue_get s out block env).map (fun r => r.2.1)
  | .flush => packet_queue_flush s
  | .abort => some (packet_queue_abort s)

/-- The state after a sequence of calls. -/
def run_ops : State → List QueueOp → Option State
  | s, [] => some s
  | s, op :: rest =>
    match apply_op s op with
    | none => none
    | some s1 => run_ops s1 rest

/-- The allocator behaves in the call `op` on `s`: a node it returns is not
live, and the packet `packet_queue_put_nullpacket` dereferences exists. -/
def op_alloc_ok (s : State) : QueueOp → Prop
  | .put _ node _ => node.bind s.heap.read = none
  | .put_nullpacket _ tmp_ok node _ => tmp_ok = true ∧ node.bind s.heap.read = none
  | _ => True

instance (s : State) (op : QueueOp) : Decidable (op_alloc_ok s op) := by
  cases op <;> unfold op_alloc_ok <;> infer_instance

/-- The allocator behaves in every call of a run. -/
def run_alloc_ok : State → List QueueOp → Prop
  | _, [] => True
  | s, op :: rest =>
    op_alloc_ok s op ∧
      match apply_op s op with
      | none => True
      | some s1 => run_alloc_ok s1 rest

instance run_alloc_ok.decidable : (s : State) → (ops : List QueueOp) →
    Decidable (run_alloc_ok s ops)
  | _, [] => by unfold run_alloc_ok; infer_instance
  | s, op :: rest => by
    unfold run_alloc_ok
    cases apply_op s op with
    | none => infer_instance
    | some s1 =>
      have := run_alloc_ok.decidable s1 rest
      infer_instance

/-! ## The type `double` -/

/-- A value of the C type `double` (IEEE 754 binary64).  A finite value is
`(-1)^neg * mant * 2^exp`; the operations return it with `mant < 2^53` and
`-1074 ≤ exp ≤ 971`, and with `2^52 ≤ mant` unless `exp = -1074`. -/
inductive Double where
  | nan
  | inf (neg : Bool)
  | fin (neg : Bool) (mant : Nat) (exp : Int)
deriving DecidableEq, Repr

/-- Number of binary digits of `n`, by halving at most `fuel` times. -/
def bit_length_aux : Nat → Nat → Nat
  | 0, _ => 0
  | fuel + 1, n => if n = 0 then 0 else bit_length_aux fuel (n / 2) + 1

/-- Number of binary digits of a natural number. -/
def bit_length (n : Nat) : Nat := bit_length_aux n n

/-- Round the non-zero value `(-1)^neg * m * 2^e` to the nearest binary64
value, ties to even; a value that is too large becomes infinite. -/
def Double.round (neg : Bool) (m : Nat) (e : Int) : Double :=
  let target : Int := max (e + (bit_length m : Int) - 53) (-1074)
  if target ≤ e then
    if target > 971 then Double.inf neg
    else Double.fin neg (m * 2 ^ (e - target).toNat) target
  else
    let k : Nat := (target - e).toNat
    let q : Nat := m / 2 ^ k
    let r : Nat := m % 2 ^ k
    let half : Nat := 2 ^ (k - 1)
    let q1 : Nat := if half < r ∨ (r = half ∧ q % 2 = 1) then q + 1 else q
    let mant : Nat := if q1 = 2 ^ 53 then 2 ^ 52 else q1
    let exp : Int := if q1 = 2 ^ 53 then target + 1 else target
    if exp > 971 then Double.inf neg else Double.fin neg mant exp

/-- The integer `(-1)^neg * m * 2^(e - base)`, for `base ≤ e`. -/
def Double.scaled (neg : Bool) (m : Nat) (e base : Int) : Int :=
  let v : Int := (m * 2 ^ (e - base).toNat : Nat)
  if neg then -v else v

/-- Binary64 addition, round to nearest, ties to even. -/
def Double.add : Double → Double → Double
  | .nan, _ => .nan
  | _, .nan => .nan
  | .inf a, .inf b => if a = b then .inf a else .nan
  | .inf a, .fin _ _ _ => .inf a
  | .fin _ _ _, .inf b => .inf b
  | .fin n1 m1 e1, .fin n2 m2 e2 =>
    let base : Int := min e1 e2
    let s : Int := Double.scaled n1 m1 e1 base + Double.scaled n2 m2 e2 base
    if s = 0 then Double.fin (n1 && n2) 0 (-1074)
    else Double.round (decide (s < 0)) s.natAbs base

/-- Binary64 negation. -/
def Double.neg : Double → Double
  | .nan => .nan
  | .inf a => .inf (!a)
  | .fin n m e => .fin (!n) m e

/-- Binary64 subtraction. -/
def Double.sub (x y : Double) : Double := Double.add x (Double.neg y)

/-- Binary64 multiplication, round to nearest, ties to even. -/
def Double.mul : Double → Double → Double
  | .nan, _ => .nan
  | _, .nan => .nan
  | .inf a, .inf b => .inf (xor a b)
  | .inf a, .fin n m _ => if m = 0 then .nan else .inf (xor a n)
  | .fin n m _, .inf b => if m = 0 then .nan else .inf (xor n b)
  | .fin n1 m1 e1, .fin n2 m2 e2 =>
    if m1 * m2 = 0 then Double.fin (xor n1 n2) 0 (-1074)
    else Double.round (xor n1 n2) (m1 * m2) (e1 + e2)

/-- The function `fabs` of `<math.h>`. -/
def Double.fabs : Double → Double
  | .nan => .nan
  | .inf _ => .inf false
  | .fin _ m e => .fin false m e

/-- The macro `isnan` of `<math.h>`. -/
def Double.isnan : Double → Bool
  | .nan => true
  | _ => false

/-- The value is neither NaN nor infinite. -/
def Double.isFinite : Double → Bool
  | .fin _ _ _ => true
  | _ => false

/-- The comparison `x > y` of C. -/
def Double.gt : Double → Double → Bool
  | .nan, _ => false
  | _, .nan => false
  | .inf a, .inf b => !a && b
  | .inf a, .fin _ _ _ => !a
  | .fin _ _ _, .inf b => b
  | .fin n1 m1 e1, .fin n2 m2 e2 =>
    decide (Double.scaled n2 m2 e2 (min e1 e2) < Double.scaled n1 m1 e1 (min e1 e2))

/-- The macro `NAN` of `<math.h>`. -/
def NAN : Double := Double.nan

/-- The literal `0.0`. -/
def d_0 : Double := .fin false 0 (-1074)

/-- The literal `1.0`. -/
def d_1 : Double := .fin false 4503599627370496 (-52)

/-- The literal `2.0`. -/
def d_2 : Double := .fin false 4503599627370496 (-51)

/-- The literal `5.0`. -/
def d_5 : Double := .fin false 5629499534213120 (-50)

/-- The literal `5.3`. -/
def d_5_3 : Double := .fin false 5967269506265907 (-50)

/-- The literal `0.1`. -/
def d_0_1 : Double := .fin false 7205759403792794 (-56)

/-- The literal `100.0`. -/
def d_100 : Double := .fin false 7036874417766400 (-46)

/-- The literal `101.0`. -/
def d_101 : Double := .fin false 7107243161944064 (-46)

/-- The literal `1000000.0`. -/
def d_1e6 : Double := .fin false 8589934592000000 (-33)

/-! ## Clocks (src/player.c) -/

/-- The objects a clock's `queue_serial` pointer refers to in this program:
`&is->video_pkt_queue.serial` and `&is->audio_pkt_queue.serial`. -/
inductive serial_ref where
  | video_pkt_queue
  | audio_pkt_queue
deriving DecidableEq, Repr

/-- The fields of `play_clock_t` that `src/player.c` uses. -/
structure play_clock_t where
  pts : Double
  pts_drift : Double
  last_updated : Double
  speed : Double
  serial : Int
  paused : Int
  queue_serial : serial_ref
deriving DecidableEq, Repr

/-- The function `get_clock`.  `queue_serial` is the value read through
`c->queue_serial` and `time` the value of `av_gettime_relative() / 1000000.0`,
which is read in the last branch only.  The function writes nothing. -/
def get_clock (c : play_clock_t) (queue_serial : Int) (time : Double) : Double :=
  if queue_serial ≠ c.serial then NAN
  else if c.paused ≠ 0 then c.pts
  else c.pts_drift.add time

/-- The function `set_clock_at`. -/
def set_clock_at (c : play_clock_t) (pts : Double) (serial : Int) (time : Double) :
    play_clock_t :=
  let c1 : play_clock_t := { c with pts := pts }
  let c2 : play_clock_t := { c1 with last_updated := time }
  let c3 : play_clock_t := { c2 with pts_drift := c2.pts.sub time }
  { c3 with serial := serial }

/-- The function `set_clock`; `time` is the wall time it reads. -/
def set_clock (c : play_clock_t) (pts : Double) (serial : Int) (time : Double) : play_clock_t :=
  set_clock_at c pts serial time

/-- The function `init_clock`; `time` is the wall time `set_clock` reads. -/
def init_clock (c : play_clock_t) (queue_serial : serial_ref) (time : Double) : play_clock_t :=
  let c1 : play_clock_t := { c with speed := d_1 }
  let c2 : play_clock_t := { c1 with paused := 0 }
  let c3 : play_clock_t := { c2 with queue_serial := queue_serial }
  set_clock c3 NAN (-1) time

/-- The function `sync_play_clock_to_slave`, for two distinct clocks.
`serial_c` and `serial_slave` are the values read through the two
`queue_serial` pointers, `threshold` is `AV_NOSYNC_THRESHOLD`, and `t_c`,
`t_slave`, `t_set` are the wall times the three calls read.  Returns both
clocks. -/
def sync_play_clock_to_slave (c slave : play_clock_t) (serial_c serial_slave : Int)
    (threshold : Double) (t_c t_slave t_set : Double) : play_clock_t × play_clock_t :=
  let clock := get_clock c serial_c t_c
  let slave_clock := get_clock slave serial_slave t_slave
  if !slave_clock.isnan && (clock.isnan || (clock.sub slave_clock).fabs.gt threshold) then
    (set_clock c slave_clock slave.serial t_set, slave)
  else (c, slave)

/-! ## The player state (src/player.c) -/

/-- The fields of `player_stat_t` that the pause and seek functions of
`src/player.c` read or write, with the two queues and clocks; the list nodes
of the queues are not part of it. -/
structure player_stat_t where
  video_pkt_queue : packet_queue_t
  audio_pkt_queue : packet_queue_t
  video_clk : play_clock_t
  audio_clk : play_clock_t
  abort_request : Int
  paused : Int
  step : Int
  seek_req : Int
  seek_pos : Int
  seek_rel : Int
  start_time : Int
  frame_timer : Double
  video_idx : Int
  audio_idx : Int
deriving DecidableEq, Repr

/-- The value read through a `queue_serial` pointer. -/
def player_stat_t.deref (is : player_stat_t) : serial_ref → Int
  | .video_pkt_queue => is.video_pkt_queue.serial
  | .audio_pkt_queue => is.audio_pkt_queue.serial

/-- The operator `!` of C on an `int`. -/
def lnot (x : Int) : Int := if x = 0 then 1 else 0

/-- The function `stream_toggle_pause`; `t_timer`, `t_get` and `t_set` are the
wall times read for `frame_timer`, by `get_clock` and by `set_clock`. -/
def stream_toggle_pause (is : player_stat_t) (t_timer t_get t_set : Double) : player_stat_t :=
  let is2 : player_stat_t :=
    if is.paused ≠ 0 then
      let is1 : player_stat_t :=
        { is with frame_timer := is.frame_timer.add (t_timer.sub is.video_clk.last_updated) }
      let now : Double := get_clock is1.video_clk (is1.deref is1.video_clk.queue_serial) t_get
      { is1 with video_clk := set_clock is1.video_clk now is1.video_clk.serial t_set }
    else is
  let v : Int := lnot is2.paused
  let is3 : player_stat_t := { is2 with video_clk := { is2.video_clk with paused := v } }
  let is4 : player_stat_t := { is3 with audio_clk := { is3.audio_clk with paused := v } }
  { is4 with paused := v }

/-- The function `toggle_pause`. -/
def toggle_pause (is : player_stat_t) (t_timer t_get t_set : Double) : player_stat_t :=
  let is1 : player_stat_t := stream_toggle_pause is t_timer t_get t_set
  { is1 with step := 0 }

/-- The function `stream_seek` (`SDL_CondSignal` changes no field). -/
def stream_seek (is : player_stat_t) (pos rel : Int) : player_stat_t :=
  if is.seek_req = 0 then
    let is1 : player_stat_t := { is with seek_pos := pos }
    let is2 : player_stat_t := { is1 with seek_rel := rel }
    { is2 with seek_req := 1 }
  else is

/-- A sequence of `set_clock` calls, each with its pts, serial and wall
time. -/
def set_clock_all : play_clock_t → List (Double × Int × Double) → play_clock_t
  | c, [] => c
  | c, (pts, serial, time) :: rest => set_clock_all (set_clock c pts serial time) rest

/-! ## Concrete clocks and players -/

/-- The literal `6.0`. -/
def d_6 : Double := .fin false 6755399441055744 (-50)

/-- The literal `7.0`. -/
def d_7 : Double := .fin false 7881299347898368 (-50)

/-- A zeroed clock (as `av_mallocz` leaves it) that refers to the video
queue. -/
def zero_clock : play_clock_t :=
  { pts := d_0, pts_drift := d_0, last_updated := d_0, speed := d_0, serial := 0, paused := 0,
    queue_serial := serial_ref.video_pkt_queue }

/-- The audio clock of the scenario: initialised at wall time 100.0 and set to
pts 5.0 with serial 0 at wall time 100.0. -/
def audio_clock_5 : play_clock_t :=
  set_clock_at (init_clock zero_clock serial_ref.audio_pkt_queue d_100) d_5 0 d_100

/-- The video clock of the scenario: set to pts 5.3 with serial 0 at wall time
100.0. -/
def video_clock_5_3 : play_clock_t :=
  set_clock_at (init_clock zero_clock serial_ref.video_pkt_queue d_100) d_5_3 0 d_100

/-- A running player whose clocks were set at wall time 100.0 (audio pts 5.0,
video pts 5.3), with serial 0 everywhere. -/
def running_player : player_stat_t :=
  { video_pkt_queue := zeroed, audio_pkt_queue := zeroed,
    video_clk := video_clock_5_3, audio_clk := audio_clock_5,
    abort_request := 0, paused := 0, step := 0, seek_req := 0, seek_pos := 0, seek_rel := 0,
    start_time := 0, frame_timer := d_100, video_idx := 0, audio_idx := 1 }

/-- A paused player whose video clock was set to pts 0.1 at wall time 100.0. -/
def paused_player : player_stat_t :=
  { video_pkt_queue := zeroed, audio_pkt_queue := zeroed,
    video_clk := { set_clock_at zero_clock d_0_1 0 d_100 with paused := 1 },
    audio_clk := { audio_clock_5 with paused := 1 },
    abort_request := 0, paused := 1, step := 0, seek_req := 0, seek_pos := 0, seek_rel := 0,
    start_time := 0, frame_timer := d_100, video_idx := 0, audio_idx := 1 }

/-- A paused player whose video clock was set to pts 5.0 at wall time 100.0. -/
def paused_player_5 : player_stat_t :=
  { paused_player with video_clk := { set_clock_at zero_clock d_5 0 d_100 with paused := 1 } }

/-! ## The node memory -/

theorem Heap.read_free_self (h : Heap) (a : Nat) : (h.free a).read a = none := by
  cases h with
  | mk cells =>
    simp only [Heap.read, Heap.free, Option.map_eq_none', List.find?_eq_none]
    intro c hc
    simp only [List.mem_filter] at hc
    simpa using hc.2

theorem Heap.read_free_ne (h : Heap) {a b : Nat} (hne : b ≠ a) :
    (h.free a).read b = h.read b := by
  cases h with
  | mk cells =>
    simp only [Heap.read, Heap.free]
    congr 1
    induction cells with
    | nil => rfl
    | cons c cs ih =>
      obtain ⟨ca, cn⟩ := c
      by_cases hca : ca = a
      · subst hca
        have hcb : ¬ ca = b := fun hb => hne hb.symm
        simpa [List.filter_cons, List.find?_cons, hcb] using ih
      · by_cases hcb : ca = b
        · subst hcb
          simp [List.filter_cons, List.find?_cons, hca]
        · simpa [List.filter_cons, List.find?_cons, hca, hcb] using ih

theorem Heap.read_write_self (h : Heap) (a : Nat) (nd : packet_listnode_t) :
    (h.write a nd).read a = some nd := by
  simp [Heap.read, Heap.write]

theorem Heap.read_write_ne (h : Heap) {a b : Nat} (nd : packet_listnode_t) (hne : b ≠ a) :
    (h.write a nd).read b = h.read b := by
  have h1 : (h.write a nd).read b = (h.free a).read b := by
    have hab : ¬ a = b := fun e => hne e.symm
    simp [Heap.read, Heap.write, List.find?_cons, hab]
  rw [h1, Heap.read_free_ne h hne]

theorem Heap.free_length_lt (h : Heap) {a : Nat} (hlive : h.read a ≠ none) :
    (h.free a).cells.length < h.cells.length := by
  cases h with
  | mk cells =>
    simp only [Heap.read, Heap.free, ne_eq, Option.map_eq_none', List.find?_eq_none,
      not_forall] at hlive ⊢
    obtain ⟨c, hc, hca⟩ := hlive
    apply List.length_filter_lt_length_iff_exists.mpr
    exact ⟨c, hc, by simpa using hca⟩

/-! ## List segments -/

theorem seg_nil (h : Heap) (p e : Option Nat) : Seg h p [] e ↔ p = e := by
  simp [Seg]

theorem seg_cons (h : Heap) (p e : Option Nat) (a : Nat) (u : AVPacket)
    (rest : List (Nat × AVPacket)) :
    Seg h p ((a, u) :: rest) e ↔
      p = some a ∧ ∃ nx, h.read a = some ⟨u, nx⟩ ∧ Seg h nx rest e := by
  simp only [Seg]
  constructor
  · rintro ⟨hp, hu, hrest⟩
    refine ⟨hp, ?_⟩
    cases hr : h.read a with
    | none => simp [hr] at hu
    | some nd =>
      obtain ⟨pk, nx⟩ := nd
      simp only [hr, Option.map_some', Option.some.injEq] at hu
      subst hu
      exact ⟨nx, rfl, by simpa [hr] using hrest⟩
  · rintro ⟨hp, nx, hr, hrest⟩
    exact ⟨hp, by simp [hr], by simpa [hr] using hrest⟩

theorem seg_append (h : Heap) (l1 l2 : List (Nat × AVPacket)) (p e : Option Nat) :
    Seg h p (l1 ++ l2) e ↔ ∃ m, Seg h p l1 m ∧ Seg h m l2 e := by
  induction l1 generalizing p with
  | nil => simp [seg_nil]
  | cons c cs ih =>
    obtain ⟨a, u⟩ := c
    simp only [List.cons_append, seg_cons, ih]
    constructor
    · rintro ⟨hp, nx, hr, m, h1, h2⟩
      exact ⟨m, ⟨hp, nx, hr, h1⟩, h2⟩
    · rintro ⟨m, ⟨hp, nx, hr, h1⟩, h2⟩
      exact ⟨hp, nx, hr, m, h1, h2⟩

theorem seg_live (h : Heap) {l : List (Nat × AVPacket)} {p e : Option Nat} (hs : Seg h p l e)
    {a : Nat} (ha : a ∈ addrs l) : h.read a ≠ none := by
  induction l generalizing p with
  | nil => simp [addrs] at ha
  | cons c cs ih =>
    obtain ⟨b, u⟩ := c
    obtain ⟨-, nx, hr, hrest⟩ := (seg_cons h p e b u cs).mp hs
    simp only [addrs, List.map_cons, List.mem_cons] at ha
    rcases ha with rfl | ha
    · simp [hr]
    · exact ih hrest ha

theorem seg_free (h : Heap) {l : List (Nat × AVPacket)} {p e : Option Nat} (hs : Seg h p l e)
    {a : Nat} (ha : a ∉ addrs l) : Seg (h.free a) p l e := by
  induction l generalizing p with
  | nil => simpa [seg_nil] using hs
  | cons c cs ih =>
    obtain ⟨b, u⟩ := c
    obtain ⟨hp, nx, hr, hrest⟩ := (seg_cons h p e b u cs).mp hs
    simp only [addrs, List.map_cons, List.mem_cons, not_or] at ha
    refine (seg_cons _ p e b u cs).mpr ⟨hp, nx, ?_, ih hrest ha.2⟩
    rw [Heap.read_free_ne h (fun hb => ha.1 hb.symm), hr]

theorem seg_write (h : Heap) {l : List (Nat × AVPacket)} {p e : Option Nat} (hs : Seg h p l e)
    {a : Nat} (nd : packet_listnode_t) (ha : a ∉ addrs l) : Seg (h.write a nd) p l e := by
  induction l generalizing p with
  | nil => simpa [seg_nil] using hs
  | cons c cs ih =>
    obtain ⟨b, u⟩ := c
    obtain ⟨hp, nx, hr, hrest⟩ := (seg_cons h p e b u cs).mp hs
    simp only [addrs, List.map_cons, List.mem_cons, not_or] at ha
    refine (seg_cons _ p e b u cs).mpr ⟨hp, nx, ?_, ih hrest ha.2⟩
    rw [Heap.read_write_ne h nd (fun hb => ha.1 hb.symm), hr]

/-- A null-terminated list is determined by its first pointer. -/
theorem chain_det (h : Heap) {l1 l2 : List (Nat × AVPacket)} {p : Option Nat}
    (h1 : Seg h p l1 none) (h2 : Seg h p l2 none) : l1 = l2 := by
  induction l1 generalizing p l2 with
  | nil =>
    cases l2 with
    | nil => rfl
    | cons c cs =>
      obtain ⟨b, u⟩ := c
      have hp := (seg_nil h p none).mp h1
      have := ((seg_cons h p none b u cs).mp h2).1
      rw [hp] at this
      cases this
  | cons c cs ih =>
    obtain ⟨a, u⟩ := c
    obtain ⟨hp, nx, hr, hrest⟩ := (seg_cons h p none a u cs).mp h1
    cases l2 with
    | nil =>
      have := (seg_nil h p none).mp h2
      rw [hp] at this
      cases this
    | cons d ds =>
      obtain ⟨b, v⟩ := d
      obtain ⟨hp2, nx2, hr2, hrest2⟩ := (seg_cons h p none b v ds).mp h2
      rw [hp] at hp2
      cases hp2
      rw [hr] at hr2
      cases hr2
      rw [ih hrest hrest2]

/-- The first node of a null-terminated list does not occur again in it. -/
theorem chain_head_notin (h : Heap) {a : Nat} {u : AVPacket} {rest : List (Nat × AVPacket)}
    {p : Option Nat} (hs : Seg h p ((a, u) :: rest) none) : a ∉ addrs rest := by
  intro hmem
  simp only [addrs, List.mem_map] at hmem
  obtain ⟨c, hc, hca⟩ := hmem
  obtain ⟨l1, l2, hsplit⟩ := List.append_of_mem hc
  obtain ⟨b, v⟩ := c
  simp only at hca
  subst hca
  obtain ⟨hp, nx, hr, hrest⟩ := (seg_cons h p none b u rest).mp hs
  rw [hsplit] at hrest
  obtain ⟨m, -, hm⟩ := (seg_append h l1 ((b, v) :: l2) nx none).mp hrest
  obtain ⟨hm1, nx2, hr2, hrest2⟩ := (seg_cons h m none b v l2).mp hm
  rw [hr] at hr2
  cases hr2
  have hrest3 : Seg h nx rest none := by rw [hsplit]; exact hrest
  have := chain_det h hrest3 hrest2
  have hlen := congrArg List.length this
  rw [hsplit] at hlen
  simp at hlen
  omega

/-- The nodes of a null-terminated list are pairwise distinct. -/
theorem chain_nodup (h : Heap) {l : List (Nat × AVPacket)} {p : Option Nat}
    (hs : Seg h p l none) : (addrs l).Nodup := by
  induction l generalizing p with
  | nil => simp [addrs]
  | cons c cs ih =>
    obtain ⟨a, u⟩ := c
    obtain ⟨-, nx, -, hrest⟩ := (seg_cons h p none a u cs).mp hs
    simp only [addrs, List.map_cons, List.nodup_cons]
    exact ⟨chain_head_notin h hs, ih hrest⟩

/-- A null-terminated list has at most as many nodes as the memory has cells. -/
theorem chain_length_le (h : Heap) {l : List (Nat × AVPacket)} {p : Option Nat}
    (hs : Seg h p l none) : l.length ≤ h.cells.length := by
  induction l generalizing p h with
  | nil => simp
  | cons c cs ih =>
    obtain ⟨a, u⟩ := c
    obtain ⟨-, nx, hr, hrest⟩ := (seg_cons h p none a u cs).mp hs
    have h1 := ih (h.free a) (seg_free h hrest (chain_head_notin h hs))
    have h2 := Heap.free_length_lt h (a := a) (by simp [hr])
    simp only [List.length_cons]
    omega

/-! ## The operations on a queue that holds a list -/

theorem flush_loop_chain (h : Heap) {l : List (Nat × AVPacket)} {p : Option Nat}
    (hs : Seg h p l none) (fuel : Nat) (hf : l.length < fuel) :
    ∃ h1, flush_loop fuel p h = some h1 ∧ (∀ a ∈ addrs l, h1.read a = none) ∧
      (∀ b, b ∉ addrs l → h1.read b = h.read b) := by
  induction l generalizing h p fuel with
  | nil =>
    have hp := (seg_nil h p none).mp hs
    subst hp
    cases fuel with
    | zero => simp at hf
    | succ k => exact ⟨h, rfl, by simp [addrs], fun _ _ => rfl⟩
  | cons c cs ih =>
    obtain ⟨a, u⟩ := c
    obtain ⟨hp, nx, hr, hrest⟩ := (seg_cons h p none a u cs).mp hs
    subst hp
    cases fuel with
    | zero => simp at hf
    | succ k =>
      have hnot := chain_head_notin h hs
      obtain ⟨h1, hrun, hdead, hframe⟩ :=
        ih (h.free a) (seg_free h hrest hnot) k (by simpa using hf)
      refine ⟨h1, ?_, ?_, ?_⟩
      · simp only [flush_loop, hr]
        exact hrun
      · intro b hb
        simp only [addrs, List.map_cons, List.mem_cons] at hb
        by_cases hba : b = a
        · subst hba
          rw [hframe b hnot, Heap.read_free_self]
        · rcases hb with hb | hb
          · exact absurd hb hba
          · exact hdead b hb
      · intro b hb
        simp only [addrs, List.map_cons, List.mem_cons, not_or] at hb
        rw [hframe b hb.2, Heap.read_free_ne h hb.1]

/-- What `packet_queue_flush` does to a queue that holds the list `l`. -/
theorem flush_queued (s : State) (l : List (Nat × AVPacket)) (hq : Queued s l) :
    ∃ h1, packet_queue_flush s =
        some ⟨{ s.q with last_pkt := none, first_pkt := none, nb_packets := 0, size := 0,
                         duration := 0 }, h1⟩ ∧
      (∀ a ∈ addrs l, h1.read a = none) ∧ (∀ b, b ∉ addrs l → h1.read b = s.heap.read b) := by
  obtain ⟨h1, hrun, hdead, hframe⟩ :=
    flush_loop_chain s.heap hq.1 (s.heap.cells.length + 1)
      (Nat.lt_succ_of_le (chain_length_le s.heap hq.1))
  exact ⟨h1, by simp only [packet_queue_flush, hrun], hdead, hframe⟩

/-- What `packet_queue_get` does to a queue that holds a non-empty list. -/
theorem get_queued (s : State) (a : Nat) (u : AVPacket) (rest : List (Nat × AVPacket))
    (hq : Queued s ((a, u) :: rest)) (pkt : AVPacket) (block : Int) (env : List (Int × State)) :
    ∃ s1, packet_queue_get s pkt block env = some (1, s1, u) ∧ Queued s1 rest ∧
      s1.q.nb_packets = wrap32 (s.q.nb_packets - 1) ∧
      s1.q.size = wrap32 (s.q.size - u.size) ∧ same_control s.q s1.q ∧
      s1.heap = s.heap.free a := by
  obtain ⟨hseg, hlast⟩ := hq
  obtain ⟨hp, nx, hr, hrest⟩ := (seg_cons s.heap _ none a u rest).mp hseg
  have hnot := chain_head_notin s.heap hseg
  cases rest with
  | nil =>
    have hnx := (seg_nil s.heap nx none).mp hrest
    subst hnx
    refine ⟨⟨{ s.q with first_pkt := none, last_pkt := none,
                        nb_packets := wrap32 (s.q.nb_packets - 1),
                        size := wrap32 (s.q.size - u.size) }, s.heap.free a⟩, ?_, ?_, ?_, ?_, ?_, ?_⟩
    · simp only [packet_queue_get, packet_queue_get_loop, hp, hr, if_true]
    · exact ⟨by simp [seg_nil], by simp⟩
    · rfl
    · rfl
    · exact ⟨rfl, rfl, rfl, rfl, rfl⟩
    · rfl
  | cons d ds =>
    obtain ⟨b, v⟩ := d
    have hnx := ((seg_cons s.heap nx none b v ds).mp hrest).1
    subst hnx
    refine ⟨⟨{ s.q with first_pkt := some b,
                        nb_packets := wrap32 (s.q.nb_packets - 1),
                        size := wrap32 (s.q.size - u.size) }, s.heap.free a⟩, ?_, ?_, ?_, ?_, ?_, ?_⟩
    · simp only [packet_queue_get, packet_queue_get_loop, hp, hr, reduceCtorEq, if_false]
    · refine ⟨seg_free s.heap hrest hnot, ?_⟩
      simpa [List.getLast?_cons_cons] using hlast
    · rfl
    · rfl
    · exact ⟨rfl, rfl, rfl, rfl, rfl⟩
    · rfl

/-- What a `packet_queue_put` whose allocations succeed does to a queue that
holds the list `l`, when the allocator returns a node `n` that is not live. -/
theorem put_queued (s : State) (l : List (Nat × AVPacket)) (hq : Queued s l) (pkt : AVPacket)
    (n : Nat) (hfresh : s.heap.read n = none) :
    ∃ s1, packet_queue_put s pkt (some n) true = some (0, s1, av_packet_defaults) ∧
      Queued s1 (l ++ [(n, pkt)]) ∧
      s1.q.nb_packets = wrap32 (s.q.nb_packets + 1) ∧
      s1.q.size = wrap32 (s.q.size + pkt.size) ∧ same_control s.q s1.q ∧
      (∀ b, b ≠ n → b ∉ addrs l → s1.heap.read b = s.heap.read b) := by
  obtain ⟨hseg, hlast⟩ := hq
  have hn : n ∉ addrs l := fun hmem => seg_live s.heap hseg hmem hfresh
  rcases List.eq_nil_or_concat l with rfl | ⟨l0, c, hl⟩
  · have hp := (seg_nil s.heap _ none).mp hseg
    simp only [List.getLast?_nil, Option.map_none'] at hlast
    refine ⟨⟨{ s.q with first_pkt := some n, last_pkt := some n,
                        nb_packets := wrap32 (s.q.nb_packets + 1),
                        size := wrap32 (s.q.size + pkt.size) },
             s.heap.write n ⟨pkt, none⟩⟩, ?_, ?_, ?_, ?_, ?_, ?_⟩
    · simp only [packet_queue_put, hlast, reduceCtorEq, if_false]
    · refine ⟨?_, by simp⟩
      simp only [List.nil_append]
      exact (seg_cons _ _ none n pkt []).mpr
        ⟨rfl, none, Heap.read_write_self _ _ _, by simp [seg_nil]⟩
    · rfl
    · rfl
    · exact ⟨rfl, rfl, rfl, rfl, rfl⟩
    · intro b hb _
      exact Heap.read_write_ne _ _ hb
  · rw [List.concat_eq_append] at hl
    subst hl
    obtain ⟨b, v⟩ := c
    simp at hlast
    obtain ⟨m, hseg0, hm⟩ := (seg_append s.heap l0 [(b, v)] _ none).mp hseg
    obtain ⟨hmb, nx, hrb, hnil⟩ := (seg_cons s.heap m none b v []).mp hm
    have hnx := (seg_nil s.heap nx none).mp hnil
    subst hnx
    subst hmb
    have hnd := chain_nodup s.heap hseg
    simp only [addrs, List.map_append, List.map_cons, List.map_nil] at hnd hn
    have hb0 : b ∉ addrs l0 := by
      intro hmem
      have := (List.nodup_append.mp hnd).2.2
      exact this hmem (by simp) 
    have hn0 : n ∉ addrs l0 := fun hmem => hn (by simp [addrs] at hmem ⊢; exact Or.inl hmem)
    have hbn : b ≠ n := fun e => hn (by simp [e])
    have hread : (s.heap.write n ⟨pkt, none⟩).read b = some ⟨v, none⟩ := by
      rw [Heap.read_write_ne _ _ hbn, hrb]
    refine ⟨⟨{ s.q with last_pkt := some n,
                        nb_packets := wrap32 (s.q.nb_packets + 1),
                        size := wrap32 (s.q.size + pkt.size) },
             (s.heap.write n ⟨pkt, none⟩).write b ⟨v, some n⟩⟩, ?_, ?_, ?_, ?_, ?_, ?_⟩
    · simp only [packet_queue_put, hlast, hread, reduceCtorEq, if_false]
    · refine ⟨?_, by simp⟩
      simp only [List.append_assoc, List.singleton_append]
      refine (seg_append _ l0 [(b, v), (n, pkt)] _ none).mpr ⟨some b, ?_, ?_⟩
      · exact seg_write _ (seg_write _ hseg0 _ hn0) _ hb0
      · refine (seg_cons _ _ none b v [(n, pkt)]).mpr ⟨rfl, some n, Heap.read_write_self _ _ _, ?_⟩
        refine (seg_cons _ _ none n pkt []).mpr ⟨rfl, none, ?_, by simp [seg_nil]⟩
        rw [Heap.read_write_ne _ _ (fun e => hbn e.symm), Heap.read_write_self]
    · rfl
    · rfl
    · exact ⟨rfl, rfl, rfl, rfl, rfl⟩
    · intro x hxn hx
      have hxb : x ≠ b := fun e => hx (by simp [addrs, e])
      show ((s.heap.write n ⟨pkt, none⟩).write b _).read x = s.heap.read x
      rw [Heap.read_write_ne _ _ hxb, Heap.read_write_ne _ _ hxn]

/-! ## Machine arithmetic -/

theorem wrap32_of_inInt {x : Int} (h : inInt x) : wrap32 x = x := by
  unfold inInt at h
  unfold wrap32
  omega

theorem wrap32_add_left (a b : Int) : wrap32 (wrap32 a + b) = wrap32 (a + b) := by
  unfold wrap32
  omega

theorem wrap32_sub_left (a b : Int) : wrap32 (wrap32 a - b) = wrap32 (a - b) := by
  unfold wrap32
  omega

theorem wrap32_inInt (x : Int) : inInt (wrap32 x) := by
  unfold inInt wrap32
  omega

theorem same_control_refl (q : packet_queue_t) : same_control q q :=
  ⟨rfl, rfl, rfl, rfl, rfl⟩

theorem same_control_trans {q1 q2 q3 : packet_queue_t} (h12 : same_control q1 q2)
    (h23 : same_control q2 q3) : same_control q1 q3 := by
  obtain ⟨a1, a2, a3, a4, a5⟩ := h12
  obtain ⟨b1, b2, b3, b4, b5⟩ := h23
  exact ⟨b1.trans a1, b2.trans a2, b3.trans a3, b4.trans a4, b5.trans a5⟩

theorem total_size_cons (c : Nat × AVPacket) (l : List (Nat × AVPacket)) :
    total_size (c :: l) = c.2.size + total_size l := by
  simp [total_size]

theorem total_size_append (l1 l2 : List (Nat × AVPacket)) :
    total_size (l1 ++ l2) = total_size l1 + total_size l2 := by
  simp [total_size]

/-! ## Runs of calls -/

theorem put_all_queued (items : List (Nat × AVPacket)) :
    ∀ (s : State) (l : List (Nat × AVPacket)), Queued s l → (addrs items).Nodup →
      (∀ n ∈ addrs items, s.heap.read n = none) →
      inInt s.q.nb_packets → inInt s.q.size →
      ∃ s1, put_all s items = some (List.replicate items.length 0, s1) ∧
        Queued s1 (l ++ items) ∧
        s1.q.nb_packets = wrap32 (s.q.nb_packets + items.length) ∧
        s1.q.size = wrap32 (s.q.size + total_size items) ∧ same_control s.q s1.q := by
  induction items with
  | nil =>
    intro s l hq _ _ hnb hsz
    refine ⟨s, rfl, by simpa using hq, ?_, ?_, same_control_refl _⟩
    · simp [wrap32_of_inInt hnb]
    · simp [total_size, wrap32_of_inInt hsz]
  | cons c cs ih =>
    intro s l hq hnd hfresh hnb hsz
    obtain ⟨n, u⟩ := c
    simp only [addrs, List.map_cons, List.nodup_cons, List.mem_cons, forall_eq_or_imp] at hnd hfresh
    obtain ⟨s1, hput, hq1, hnb1, hsz1, hc1, hframe⟩ := put_queued s l hq u n hfresh.1
    have hfresh1 : ∀ m ∈ addrs cs, s1.heap.read m = none := by
      intro m hm
      have hmn : m ≠ n := fun e => hnd.1 (e ▸ hm)
      have hml : m ∉ addrs l := fun hmem => seg_live s.heap hq.1 hmem (hfresh.2 m hm)
      rw [hframe m hmn hml]
      exact hfresh.2 m hm
    obtain ⟨s2, hrun, hq2, hnb2, hsz2, hc2⟩ :=
      ih s1 (l ++ [(n, u)]) hq1 hnd.2 hfresh1 (hnb1 ▸ wrap32_inInt _) (hsz1 ▸ wrap32_inInt _)
    refine ⟨s2, ?_, ?_, ?_, ?_, same_control_trans hc1 hc2⟩
    · simp only [put_all, hput, hrun, List.length_cons, List.replicate_succ]
    · simpa using hq2
    · rw [hnb2, hnb1, wrap32_add_left]
      congr 1
      simp only [List.length_cons]
      push_cast
      ring
    · rw [hsz2, hsz1, wrap32_add_left, total_size_cons]
      congr 1
      ring

theorem get_all_queued (l1 : List (Nat × AVPacket)) :
    ∀ (s : State) (l2 : List (Nat × AVPacket)) (calls : List GetCall), Queued s (l1 ++ l2) →
      calls.length = l1.length → inInt s.q.nb_packets → inInt s.q.size →
      ∃ s1, get_all s calls = some ((units l1).map (fun u => (1, u)), s1) ∧ Queued s1 l2 ∧
        s1.q.nb_packets = wrap32 (s.q.nb_packets - l1.length) ∧
        s1.q.size = wrap32 (s.q.size - total_size l1) ∧ same_control s.q s1.q := by
  induction l1 with
  | nil =>
    intro s l2 calls hq hlen hnb hsz
    have hc : calls = [] := List.length_eq_zero.mp (by simpa using hlen)
    subst hc
    refine ⟨s, rfl, by simpa using hq, ?_, ?_, same_control_refl _⟩
    · simp [wrap32_of_inInt hnb]
    · simp [total_size, wrap32_of_inInt hsz]
  | cons c cs ih =>
    intro s l2 calls hq hlen hnb hsz
    obtain ⟨a, u⟩ := c
    cases calls with
    | nil => simp at hlen
    | cons k ks =>
      obtain ⟨s1, hget, hq1, hnb1, hsz1, hc1, -⟩ :=
        get_queued s a u (cs ++ l2) (by simpa using hq) k.out k.block k.env
      obtain ⟨s2, hrun, hq2, hnb2, hsz2, hc2⟩ :=
        ih s1 l2 ks hq1 (by simpa using hlen) (hnb1 ▸ wrap32_inInt _) (hsz1 ▸ wrap32_inInt _)
      refine ⟨s2, ?_, hq2, ?_, ?_, same_control_trans hc1 hc2⟩
      · simp only [get_all, hget, hrun, units, List.map_cons, List.map_map]
      · rw [hnb2, hnb1, wrap32_sub_left]
        congr 1
        simp only [List.length_cons]
        push_cast
        ring
      · rw [hsz2, hsz1, wrap32_sub_left, total_size_cons]
        congr 1
        ring

/-! ## Single calls -/

theorem get_nonblock_empty (s : State) (hfirst : s.q.first_pkt = none) (out : AVPacket)
    (env : List (Int × State)) : packet_queue_get s out 0 env = some (0, s, out) := by
  simp only [packet_queue_get, packet_queue_get_loop, hfirst, if_true]

theorem get_block_empty_aborted (s : State) (hfirst : s.q.first_pkt = none)
    (hab : s.q.abort_request ≠ 0) (out : AVPacket) (block : Int) (hblock : block ≠ 0)
    (env : List (Int × State)) : packet_queue_get s out block env = some (-1, s, out) := by
  have hw : cond_wait_loop 1 s env = some (s, env) := by
    unfold cond_wait_loop
    simp [hab]
  simp only [packet_queue_get, packet_queue_get_loop, hfirst, hblock, if_false, hw]
  simp [hab]

theorem queued_nil_iff (s : State) :
    Queued s [] ↔ s.q.first_pkt = none ∧ s.q.last_pkt = none := by
  simp [Queued, seg_nil]

theorem put_alloc_failure (s : State) (pkt : AVPacket) (node : Option Nat) (pkt_ok : Bool)
    (hfail : node = none ∨ pkt_ok = false) :
    packet_queue_put s pkt node pkt_ok = some (-1, s, pkt) := by
  cases node with
  | none => rfl
  | some n =>
    rcases hfail with h | h
    · cases h
    · subst h
      simp [packet_queue_put]

theorem put_minus_one_iff (s : State) (pkt : AVPacket) (node : Option Nat) (pkt_ok : Bool) :
    (packet_queue_put s pkt node pkt_ok).map (fun r => r.1) = some (-1) ↔
      (node = none ∨ pkt_ok = false) := by
  constructor
  · intro h
    cases node with
    | none => exact Or.inl rfl
    | some n =>
      cases pkt_ok with
      | false => exact Or.inr rfl
      | true =>
        exfalso
        simp only [packet_queue_put, reduceCtorEq, if_false] at h
        cases hl : s.q.last_pkt with
        | none => simp [hl] at h
        | some l =>
          cases hr : (s.heap.write n ⟨pkt, none⟩).read l with
          | none => simp [hl, hr] at h
          | some nd => simp [hl, hr] at h
  · intro h
    rw [put_alloc_failure s pkt node pkt_ok h]
    rfl

theorem put_wellFormed (s : State) (hwf : WellFormed s) (pkt : AVPacket) (n : Nat)
    (hfresh : s.heap.read n = none) (hrange : put_in_range s pkt) :
    ∃ s1, packet_queue_put s pkt (some n) true = some (0, s1, av_packet_defaults) ∧
      WellFormed s1 := by
  obtain ⟨l, hq, hnb, hsz⟩ := hwf
  obtain ⟨s1, hput, hq1, hnb1, hsz1, -, -⟩ := put_queued s l hq pkt n hfresh
  refine ⟨s1, hput, l ++ [(n, pkt)], hq1, ?_, ?_⟩
  · rw [hnb1, wrap32_of_inInt hrange.1, hnb]
    simp
  · rw [hsz1, wrap32_of_inInt hrange.2, hsz, total_size_append]
    simp [total_size]

theorem get_wellFormed_nonempty (s : State) (hwf : WellFormed s) (p : Nat)
    (hfirst : s.q.first_pkt = some p) (hrange : get_in_range s) (out : AVPacket) (block : Int)
    (env : List (Int × State)) :
    ∃ s1 u, packet_queue_get s out block env = some (1, s1, u) ∧ WellFormed s1 := by
  obtain ⟨l, hq, hnb, hsz⟩ := hwf
  cases l with
  | nil =>
    have := ((queued_nil_iff s).mp hq).1
    rw [hfirst] at this
    cases this
  | cons c rest =>
    obtain ⟨a, u⟩ := c
    obtain ⟨hp, nx, hr, -⟩ := (seg_cons s.heap _ none a u rest).mp hq.1
    obtain ⟨s1, hget, hq1, hnb1, hsz1, -, -⟩ := get_queued s a u rest hq out block env
    have hrange1 : inInt (s.q.nb_packets - 1) ∧ inInt (s.q.size - u.size) := by
      simpa [get_in_range, hp, hr] using hrange
    refine ⟨s1, u, hget, rest, hq1, ?_, ?_⟩
    · rw [hnb1, wrap32_of_inInt hrange1.1, hnb]
      simp
    · rw [hsz1, wrap32_of_inInt hrange1.2, hsz, total_size_cons]
      simp

theorem cond_wait_loop_state (signaled : Int) (s : State) (env : List (Int × State))
    (P : State → Prop) (hs : P s) (henv : ∀ e ∈ env, P e.2) :
    ∀ s1 rest, cond_wait_loop signaled s env = some (s1, rest) →
      P s1 ∧ ∀ e ∈ rest, P e.2 := by
  induction env generalizing signaled s with
  | nil =>
    intro s1 rest h
    unfold cond_wait_loop at h
    split at h
    · cases h
    · simp only [Option.some.injEq, Prod.mk.injEq] at h
      obtain ⟨rfl, rfl⟩ := h
      exact ⟨hs, henv⟩
  | cons e es ih =>
    intro s1 rest h
    unfold cond_wait_loop at h
    split at h
    · exact ih e.1 e.2 (henv e (List.mem_cons_self _ _))
        (fun x hx => henv x (List.mem_cons_of_mem _ hx)) s1 rest h
    · simp only [Option.some.injEq, Prod.mk.injEq] at h
      obtain ⟨rfl, rfl⟩ := h
      exact ⟨hs, henv⟩

theorem get_loop_wellFormed (out : AVPacket) (block : Int) :
    ∀ (fuel : Nat) (s : State) (env : List (Int × State)),
      WellFormed s → get_in_range s → (∀ e ∈ env, WellFormed e.2 ∧ get_in_range e.2) →
      match packet_queue_get_loop fuel s out block env with
      | none => True
      | some (r, s1, _) => WellFormed s1 ∧ (r = 1 ∨ r = 0 ∨ r = -1) := by
  intro fuel
  induction fuel with
  | zero =>
    intro s env _ _ _
    simp [packet_queue_get_loop]
  | succ k ih =>
    intro s env hwf hrange henv
    cases hfirst : s.q.first_pkt with
    | some p =>
      obtain ⟨s1, u, hget, hwf1⟩ := get_wellFormed_nonempty s hwf p hfirst hrange out block []
      have hstep : packet_queue_get_loop (k + 1) s out block env = some (1, s1, u) := by
        simp only [packet_queue_get, packet_queue_get_loop, hfirst] at hget ⊢
        exact hget
      rw [hstep]
      exact ⟨hwf1, Or.inl rfl⟩
    | none =>
      by_cases hblock : block = 0
      · simp only [packet_queue_get_loop, hfirst, hblock, if_true]
        exact ⟨hwf, by simp⟩
      · simp only [packet_queue_get_loop, hfirst, hblock, if_false]
        cases hw : cond_wait_loop 1 s env with
        | none => trivial
        | some res =>
          obtain ⟨s1, rest⟩ := res
          obtain ⟨hs1, hrest⟩ :=
            cond_wait_loop_state 1 s env (fun x => WellFormed x ∧ get_in_range x)
              ⟨hwf, hrange⟩ henv s1 rest hw
          by_cases hab : s1.q.abort_request = 0
          · simp only [hab, ne_eq, not_true_eq_false, if_false]
            exact ih s1 rest hs1.1 hs1.2 hrest
          · simp only [ne_eq, hab, not_false_eq_true, if_true]
            exact ⟨hs1.1, by simp⟩

theorem get_loop_none (out : AVPacket) (block : Int) (fuel : Nat) (s : State)
    (env : List (Int × State)) (hwf : WellFormed s)
    (hnone : packet_queue_get_loop (fuel + 1) s out block env = none) :
    s.q.first_pkt = none ∧ block ≠ 0 := by
  cases hfirst : s.q.first_pkt with
  | some p =>
    exfalso
    obtain ⟨l, hq, -, -⟩ := hwf
    cases l with
    | nil =>
      have := ((queued_nil_iff s).mp hq).1
      rw [hfirst] at this
      cases this
    | cons c rest =>
      obtain ⟨a, u⟩ := c
      obtain ⟨s1, hget, -⟩ := get_queued s a u rest hq out block []
      simp only [packet_queue_get, packet_queue_get_loop, hfirst] at hget hnone
      rw [hnone] at hget
      cases hget
  | none =>
    refine ⟨rfl, ?_⟩
    intro hblock
    simp [packet_queue_get_loop, hfirst, hblock] at hnone

theorem put_nullpacket_eq (s : State) (stream_index : Int) (node : Option Nat)
    (pkt_ok : Bool) :
    packet_queue_put_nullpacket s stream_index true node pkt_ok =
      (packet_queue_put s { av_packet_defaults with stream_index := stream_index } node
        pkt_ok).map (fun r => (r.1, r.2.1)) := by
  simp only [packet_queue_put_nullpacket, reduceCtorEq, if_false]
  have hp : ({ av_packet_defaults with data := none, size := 0, stream_index := stream_index } :
      AVPacket) = { av_packet_defaults with stream_index := stream_index } := rfl
  rw [hp]
  cases packet_queue_put s { av_packet_defaults with stream_index := stream_index } node
    pkt_ok with
  | none => rfl
  | some r => rfl

theorem wellFormed_empty_iff (s : State) (hwf : WellFormed s) :
    (s.q.nb_packets = 0 ↔ s.q.first_pkt = none) ∧ (s.q.first_pkt = none ↔ s.q.last_pkt = none) := by
  obtain ⟨l, hq, hnb, -⟩ := hwf
  rcases List.eq_nil_or_concat l with rfl | ⟨l0, c, hl⟩
  · have := (queued_nil_iff s).mp hq
    simp [hnb, this.1, this.2]
  · rw [List.concat_eq_append] at hl
    subst hl
    have hlast : s.q.last_pkt = some c.1 := by simpa using hq.2
    have hfirst : s.q.first_pkt ≠ none := by
      cases l0 with
      | nil =>
        obtain ⟨a, u⟩ := c
        have := ((seg_cons s.heap _ none a u []).mp (by simpa using hq.1)).1
        simp [this]
      | cons d ds =>
        obtain ⟨a, u⟩ := d
        have := ((seg_cons s.heap _ none a u (ds ++ [c])).mp (by simpa using hq.1)).1
        simp [this]
    have hlen : s.q.nb_packets ≠ 0 := by
      rw [hnb]
      simp
      omega
    simp [hlast, hfirst, hlen]

/-! ## The iteration bound of `packet_queue_get` -/

theorem cond_wait_loop_length (signaled : Int) (s : State) (env : List (Int × State)) :
    ∀ s1 rest, cond_wait_loop signaled s env = some (s1, rest) → rest.length ≤ env.length := by
  induction env generalizing signaled s with
  | nil =>
    intro s1 rest h
    unfold cond_wait_loop at h
    split at h
    · cases h
    · simp only [Option.some.injEq, Prod.mk.injEq] at h
      obtain ⟨-, rfl⟩ := h
      exact Nat.le_refl _
  | cons e es ih =>
    intro s1 rest h
    unfold cond_wait_loop at h
    split at h
    · exact Nat.le_succ_of_le (ih e.1 e.2 s1 rest h)
    · simp only [Option.some.injEq, Prod.mk.injEq] at h
      obtain ⟨-, rfl⟩ := h
      exact Nat.le_refl _

theorem cond_wait_loop_progress (s : State) (env : List (Int × State)) (s1 : State)
    (rest : List (Int × State)) (h : cond_wait_loop 1 s env = some (s1, rest))
    (hab : s1.q.abort_request = 0) : rest.length < env.length := by
  unfold cond_wait_loop at h
  split at h
  · cases env with
    | nil => cases h
    | cons e es =>
      exact Nat.lt_succ_of_le (cond_wait_loop_length e.1 e.2 es s1 rest h)
  · rename_i hc
    simp only [Option.some.injEq, Prod.mk.injEq] at h
    obtain ⟨rfl, -⟩ := h
    exact absurd ⟨by decide, hab⟩ hc

/-- More iterations than `env.length + 1` never change the result of
`packet_queue_get_loop`: a result `none` of `packet_queue_get` is a thread
that still waits, or an access to a node that is not live. -/
theorem get_loop_fuel (out : AVPacket) (block : Int) :
    ∀ (m : Nat) (env : List (Int × State)) (fuel : Nat) (s : State), env.length ≤ m →
      env.length < fuel →
      packet_queue_get_loop fuel s out block env =
        packet_queue_get_loop (env.length + 1) s out block env := by
  intro m
  induction m with
  | zero =>
    intro env fuel s hm hfuel
    have henv : env = [] := List.length_eq_zero.mp (Nat.le_zero.mp hm)
    subst henv
    cases fuel with
    | zero => simp at hfuel
    | succ k =>
      simp only [packet_queue_get_loop, List.length_nil]
      cases s.q.first_pkt with
      | some p => rfl
      | none =>
        by_cases hblock : block = 0
        · simp [hblock]
        · simp only [hblock, if_false]
          cases hw : cond_wait_loop 1 s [] with
          | none => rfl
          | some res =>
            obtain ⟨s1, rest⟩ := res
            by_cases hab : s1.q.abort_request = 0
            · have := cond_wait_loop_progress s [] s1 rest hw hab
              simp at this
            · simp [hab]
  | succ n ih =>
    intro env fuel s hm hfuel
    cases fuel with
    | zero => simp at hfuel
    | succ k =>
      simp only [packet_queue_get_loop]
      cases s.q.first_pkt with
      | some p => rfl
      | none =>
        by_cases hblock : block = 0
        · simp [hblock]
        · simp only [hblock, if_false]
          cases hw : cond_wait_loop 1 s env with
          | none => rfl
          | some res =>
            obtain ⟨s1, rest⟩ := res
            by_cases hab : s1.q.abort_request = 0
            · have hlt := cond_wait_loop_progress s env s1 rest hw hab
              simp only [hab, ne_eq, not_true_eq_false, if_false]
              rw [ih rest k s1 (by omega) (by omega), ih rest env.length s1 (by omega) hlt]
            · simp [hab]

/-! ## The abort flag along runs of operations -/

theorem put_keeps_abort (s : State) (pkt : AVPacket) (node : Option Nat) (pkt_ok : Bool)
    (r : Int) (s1 : State) (p1 : AVPacket)
    (h : packet_queue_put s pkt node pkt_ok = some (r, s1, p1)) :
    s1.q.abort_request = s.q.abort_request := by
  cases node with
  | none =>
    simp only [packet_queue_put, Option.some.injEq, Prod.mk.injEq] at h
    rw [← h.2.1]
  | some n =>
    cases pkt_ok with
    | false =>
      simp only [packet_queue_put, if_true, Option.some.injEq, Prod.mk.injEq] at h
      rw [← h.2.1]
    | true =>
      simp only [packet_queue_put, reduceCtorEq, if_false] at h
      cases hl : s.q.last_pkt with
      | none =>
        simp only [hl, Option.some.injEq, Prod.mk.injEq] at h
        rw [← h.2.1]
      | some l =>
        cases hr : (s.heap.write n ⟨pkt, none⟩).read l with
        | none => simp [hl, hr] at h
        | some nd =>
          simp only [hl, hr, Option.some.injEq, Prod.mk.injEq] at h
          rw [← h.2.1]

theorem get_keeps_abort (s : State) (hab : s.q.abort_request ≠ 0) (out : AVPacket) (block : Int)
    (env : List (Int × State)) (r : Int) (s1 : State) (u : AVPacket)
    (h : packet_queue_get s out block env = some (r, s1, u)) :
    s1.q.abort_request = s.q.abort_request := by
  cases hfirst : s.q.first_pkt with
  | some p =>
    simp only [packet_queue_get, packet_queue_get_loop, hfirst] at h
    cases hr : s.heap.read p with
    | none => simp [hr] at h
    | some nd =>
      simp only [hr, Option.some.injEq, Prod.mk.injEq] at h
      rw [← h.2.1]
      split <;> rfl
  | none =>
    by_cases hblock : block = 0
    · subst hblock
      rw [get_nonblock_empty s hfirst out env] at h
      simp only [Option.some.injEq, Prod.mk.injEq] at h
      rw [← h.2.1]
    · rw [get_block_empty_aborted s hfirst hab out block hblock env] at h
      simp only [Option.some.injEq, Prod.mk.injEq] at h
      rw [← h.2.1]

theorem flush_keeps_abort (s s1 : State) (h : packet_queue_flush s = some s1) :
    s1.q.abort_request = s.q.abort_request := by
  unfold packet_queue_flush at h
  split at h
  · cases h
  · simp only [Option.some.injEq] at h
    rw [← h]

theorem apply_op_keeps_abort (s : State) (hab : s.q.abort_request = 1) (op : QueueOp)
    (s1 : State) (h : apply_op s op = some s1) : s1.q.abort_request = 1 := by
  cases op with
  | put pkt node pkt_ok =>
    simp only [apply_op, Option.map_eq_some'] at h
    obtain ⟨⟨r, s2, p⟩, hput, rfl⟩ := h
    rw [put_keeps_abort s pkt node pkt_ok r s2 p hput, hab]
  | put_nullpacket stream_index tmp_ok node pkt_ok =>
    simp only [apply_op, Option.map_eq_some'] at h
    obtain ⟨⟨r, s2⟩, hput, rfl⟩ := h
    cases tmp_ok with
    | false => simp [packet_queue_put_nullpacket] at hput
    | true =>
      rw [put_nullpacket_eq] at hput
      simp only [Option.map_eq_some', Prod.mk.injEq] at hput
      obtain ⟨⟨r3, s3, p3⟩, hput3, -, rfl⟩ := hput
      rw [put_keeps_abort s _ node pkt_ok r3 s3 p3 hput3, hab]
  | get out block env =>
    simp only [apply_op, Option.map_eq_some'] at h
    obtain ⟨⟨r, s2, u⟩, hget, rfl⟩ := h
    rw [get_keeps_abort s (by rw [hab]; decide) out block env r s2 u hget, hab]
  | flush =>
    rw [flush_keeps_abort s s1 h, hab]
  | abort =>
    simp only [apply_op, Option.some.injEq] at h
    rw [← h]
    rfl

theorem run_ops_keeps_abort (ops : List QueueOp) :
    ∀ (s s1 : State), s.q.abort_request = 1 → run_ops s ops = some s1 →
      s1.q.abort_request = 1 := by
  induction ops with
  | nil =>
    intro s s1 hab h
    simp only [run_ops, Option.some.injEq] at h
    rw [← h, hab]
  | cons op rest ih =>
    intro s s1 hab h
    simp only [run_ops] at h
    cases hop : apply_op s op with
    | none => simp [hop] at h
    | some s2 =>
      simp only [hop] at h
      exact ih s2 s1 (apply_op_keeps_abort s hab op s2 hop) h

theorem apply_op_returns (s : State) (l : List (Nat × AVPacket)) (hq : Queued s l)
    (hab : s.q.abort_request ≠ 0) (op : QueueOp) (halloc : op_alloc_ok s op) :
    ∃ s1 l1, apply_op s op = some s1 ∧ Queued s1 l1 := by
  cases op with
  | put pkt node pkt_ok =>
    by_cases hfail : node = none ∨ pkt_ok = false
    · exact ⟨s, l, by simp [apply_op, put_alloc_failure s pkt node pkt_ok hfail], hq⟩
    · cases node with
      | none => exact absurd (Or.inl rfl) hfail
      | some n =>
        cases pkt_ok with
        | false => exact absurd (Or.inr rfl) hfail
        | true =>
          obtain ⟨s1, hput, hq1, -⟩ := put_queued s l hq pkt n (by simpa [op_alloc_ok] using halloc)
          exact ⟨s1, _, by simp [apply_op, hput], hq1⟩
  | put_nullpacket stream_index tmp_ok node pkt_ok =>
    obtain ⟨htmp, hnode⟩ := halloc
    subst htmp
    by_cases hfail : node = none ∨ pkt_ok = false
    · exact ⟨s, l, by simp [apply_op, put_nullpacket_eq, put_alloc_failure s _ node pkt_ok hfail],
        hq⟩
    · cases node with
      | none => exact absurd (Or.inl rfl) hfail
      | some n =>
        cases pkt_ok with
        | false => exact absurd (Or.inr rfl) hfail
        | true =>
          obtain ⟨s1, hput, hq1, -⟩ :=
            put_queued s l hq { av_packet_defaults with stream_index := stream_index } n
              (by simpa using hnode)
          exact ⟨s1, _, by simp [apply_op, put_nullpacket_eq, hput], hq1⟩
  | get out block env =>
    cases l with
    | nil =>
      have hfirst := ((queued_nil_iff s).mp hq).1
      by_cases hblock : block = 0
      · subst hblock
        exact ⟨s, [], by simp [apply_op, get_nonblock_empty s hfirst out env], hq⟩
      · exact ⟨s, [], by simp [apply_op, get_block_empty_aborted s hfirst hab out block hblock env],
          hq⟩
    | cons c rest =>
      obtain ⟨a, u⟩ := c
      obtain ⟨s1, hget, hq1, -⟩ := get_queued s a u rest hq out block env
      exact ⟨s1, rest, by simp [apply_op, hget], hq1⟩
  | flush =>
    obtain ⟨h1, hrun, -, -⟩ := flush_queued s l hq
    exact ⟨_, [], by simpa [apply_op] using hrun, by simp [Queued, seg_nil]⟩
  | abort =>
    exact ⟨packet_queue_abort s, l, rfl, hq⟩

theorem run_ops_returns (ops : List QueueOp) :
    ∀ (s : State) (l : List (Nat × AVPacket)), Queued s l → s.q.abort_request = 1 →
      run_alloc_ok s ops → ∃ s1, run_ops s ops = some s1 := by
  induction ops with
  | nil =>
    intro s l _ _ _
    exact ⟨s, rfl⟩
  | cons op rest ih =>
    intro s l hq hab halloc
    obtain ⟨hop, hrest⟩ := halloc
    obtain ⟨s1, l1, hstep, hq1⟩ := apply_op_returns s l hq (by rw [hab]; decide) op hop
    rw [hstep] at hrest
    obtain ⟨s2, hrun⟩ := ih s1 l1 hq1 (apply_op_keeps_abort s hab op s1 hstep) hrest
    exact ⟨s2, by simp only [run_ops, hstep, hrun]⟩

/-! ## NaN in binary64 arithmetic -/

theorem Double.add_nan_left (y : Double) : Double.add Double.nan y = Double.nan := by
  cases y <;> rfl

theorem Double.add_nan_right (x : Double) : Double.add x Double.nan = Double.nan := by
  cases x <;> rfl

theorem Double.sub_nan_left (y : Double) : Double.sub Double.nan y = Double.nan := by
  cases y <;> rfl

theorem Double.round_ne_nan (neg : Bool) (m : Nat) (e : Int) :
    Double.round neg m e ≠ Double.nan := by
  unfold Double.round
  simp only
  split_ifs <;> simp

theorem Double.add_ne_nan {x y : Double} (hx : x ≠ Double.nan) (hy : y.isFinite = true) :
    Double.add x y ≠ Double.nan := by
  cases y with
  | nan => simp [Double.isFinite] at hy
  | inf b => simp [Double.isFinite] at hy
  | fin n2 m2 e2 =>
    cases x with
    | nan => exact absurd rfl hx
    | inf a => simp [Double.add]
    | fin n1 m1 e1 =>
      simp only [Double.add]
      split
      · simp
      · exact Double.round_ne_nan _ _ _

theorem Double.sub_ne_nan {x y : Double} (hx : x ≠ Double.nan) (hy : y.isFinite = true) :
    Double.sub x y ≠ Double.nan := by
  unfold Double.sub
  apply Double.add_ne_nan hx
  cases y <;> simp_all [Double.isFinite, Double.neg]

theorem Double.isnan_iff (x : Double) : x.isnan = true ↔ x = Double.nan := by
  cases x <;> simp [Double.isnan]

/-! ## Clocks -/

theorem get_clock_paused (c : play_clock_t) (queue_serial : Int) (t : Double)
    (heq : queue_serial = c.serial) (hp : c.paused ≠ 0) : get_clock c queue_serial t = c.pts := by
  simp [get_clock, heq, hp]

theorem get_clock_running (c : play_clock_t) (queue_serial : Int) (t : Double)
    (heq : queue_serial = c.serial) (hp : c.paused = 0) :
    get_clock c queue_serial t = c.pts_drift.add t := by
  simp [get_clock, heq, hp]

theorem get_clock_set_mismatch (c : play_clock_t) (pts : Double) (serial : Int) (time : Double)
    (queue_serial : Int) (t : Double) (hne : serial ≠ queue_serial) :
    get_clock (set_clock c pts serial time) queue_serial t = NAN := by
  have hs : (set_clock c pts serial time).serial = serial := rfl
  have hq : queue_serial ≠ serial := fun h => hne h.symm
  simp only [get_clock, hs, ne_eq, hq, not_false_eq_true, if_true]

theorem get_clock_set_all_mismatch (queue_serial : Int) (t : Double)
    (sets : List (Double × Int × Double)) :
    ∀ (c : play_clock_t), get_clock c queue_serial t = NAN →
      (∀ x ∈ sets, x.2.1 ≠ queue_serial) →
      get_clock (set_clock_all c sets) queue_serial t = NAN := by
  induction sets with
  | nil =>
    intro c hc _
    exact hc
  | cons x xs ih =>
    intro c _ hall
    obtain ⟨pts, serial, time⟩ := x
    simp only [set_clock_all]
    apply ih
    · exact get_clock_set_mismatch c pts serial time queue_serial t
        (hall (pts, serial, time) (List.mem_cons_self _ _))
    · intro y hy
      exact hall y (List.mem_cons_of_mem _ hy)

theorem set_clock_all_paused (sets : List (Double × Int × Double)) :
    ∀ (c : play_clock_t), (set_clock_all c sets).paused = c.paused := by
  induction sets with
  | nil => intro c; rfl
  | cons x xs ih =>
    intro c
    obtain ⟨pts, serial, time⟩ := x
    simp only [set_clock_all]
    rw [ih]
    rfl

theorem get_clock_after_set (c : play_clock_t) (hrun : c.paused = 0) (pts : Double)
    (serial : Int) (t0 t : Double) :
    get_clock (set_clock_at c pts serial t0) serial t = (pts.sub t0).add t := by
  have hs : (set_clock_at c pts serial t0).serial = serial := rfl
  have hp : (set_clock_at c pts serial t0).paused = c.paused := rfl
  have hd : (set_clock_at c pts serial t0).pts_drift = pts.sub t0 := rfl
  simp [get_clock, hs, hp, hd, hrun]

/-! ## Pause -/

theorem stream_toggle_pause_paused (is : player_stat_t) (t_timer t_get t_set : Double) :
    (stream_toggle_pause is t_timer t_get t_set).paused = lnot is.paused ∧
      (stream_toggle_pause is t_timer t_get t_set).audio_clk.paused = lnot is.paused ∧
      (stream_toggle_pause is t_timer t_get t_set).video_clk.paused = lnot is.paused := by
  unfold stream_toggle_pause
  simp only
  split <;> exact ⟨rfl, rfl, rfl⟩

theorem stream_toggle_pause_resume (is : player_stat_t) (t_timer t_get t_set : Double)
    (hp : is.paused ≠ 0) :
    stream_toggle_pause is t_timer t_get t_set =
      { is with
        frame_timer := is.frame_timer.add (t_timer.sub is.video_clk.last_updated),
        video_clk :=
          { set_clock is.video_clk
              (get_clock is.video_clk (is.deref is.video_clk.queue_serial) t_get)
              is.video_clk.serial t_set with paused := lnot is.paused },
        audio_clk := { is.audio_clk with paused := lnot is.paused },
        paused := lnot is.paused } := by
  unfold stream_toggle_pause
  simp only [hp, ne_eq, not_false_eq_true, if_true]
  rfl

theorem stream_toggle_pause_pause (is : player_stat_t) (t_timer t_get t_set : Double)
    (hp : is.paused = 0) :
    stream_toggle_pause is t_timer t_get t_set =
      { is with
        video_clk := { is.video_clk with paused := lnot is.paused },
        audio_clk := { is.audio_clk with paused := lnot is.paused },
        paused := lnot is.paused } := by
  unfold stream_toggle_pause
  simp only [hp, ne_eq, not_true_eq_false, if_false]

theorem lnot_lnot (x : Int) : (lnot (lnot x) ≠ 0 ↔ x ≠ 0) ∧ ((x = 0 ∨ x = 1) → lnot (lnot x) = x) := by
  unfold lnot
  by_cases h : x = 0
  · simp [h]
  · simp only [h, if_false, if_true, ne_eq, one_ne_zero, not_false_eq_true, true_iff, false_or]
    exact ⟨trivial, fun h1 => h1.symm⟩

/-! ## The claims -/

/-- C1: starting from an empty queue, putting the units of `items` (every
allocation succeeds and returns a node that is not live) and then calling
`packet_queue_get` as many times, with any `block` flags and environments,
makes every put return 0 and every get return 1, yields the units in
insertion order, and leaves size 0, `nb_packets` 0 and an empty list. -/
theorem put_then_get_fifo (s0 : State) (items : List (Nat × AVPacket)) (calls : List GetCall)
    (hempty : EmptyQueue s0) (hcalls : calls.length = items.length)
    (hnodup : (addrs items).Nodup) (hfresh : ∀ n ∈ addrs items, s0.heap.read n = none) :
    ∃ s1 s2, put_all s0 items = some (List.replicate items.length 0, s1) ∧
      get_all s1 calls = some ((units items).map (fun u => (1, u)), s2) ∧
      s2.q.size = 0 ∧ s2.q.nb_packets = 0 ∧ s2.q.first_pkt = none ∧ s2.q.last_pkt = none := by
  obtain ⟨hf, hl, hnb, hsz⟩ := hempty
  have hq0 : Queued s0 [] := (queued_nil_iff s0).mpr ⟨hf, hl⟩
  obtain ⟨s1, hput, hq1, hnb1, hsz1, -⟩ :=
    put_all_queued items s0 [] hq0 hnodup hfresh (by rw [hnb]; decide) (by rw [hsz]; decide)
  obtain ⟨s2, hget, hq2, hnb2, hsz2, -⟩ :=
    get_all_queued items s1 [] calls (by simpa using hq1) hcalls
      (hnb1 ▸ wrap32_inInt _) (hsz1 ▸ wrap32_inInt _)
  have hq2e := (queued_nil_iff s2).mp hq2
  refine ⟨s1, s2, hput, hget, ?_, ?_, hq2e.1, hq2e.2⟩
  · rw [hsz2, hsz1, wrap32_sub_left, hsz]
    simp [wrap32]
  · rw [hnb2, hnb1, wrap32_sub_left, hnb]
    simp [wrap32]

/-- Witness of C1: two units put into a fresh queue and taken out again. -/
theorem put_then_get_fifo_witness :
    (EmptyQueue fresh_state ∧
      [GetCall.mk av_packet_defaults 1 [], GetCall.mk unitA 0 []].length =
        [(7, unitA), (3, unitB)].length ∧
      (addrs [(7, unitA), (3, unitB)]).Nodup ∧
      (∀ n ∈ addrs [(7, unitA), (3, unitB)], fresh_state.heap.read n = none)) ∧
    ∃ s1 s2, put_all fresh_state [(7, unitA), (3, unitB)] =
        some (List.replicate [(7, unitA), (3, unitB)].length 0, s1) ∧
      get_all s1 [GetCall.mk av_packet_defaults 1 [], GetCall.mk unitA 0 []] =
        some ((units [(7, unitA), (3, unitB)]).map (fun u => (1, u)), s2) ∧
      s2.q.size = 0 ∧ s2.q.nb_packets = 0 ∧ s2.q.first_pkt = none ∧ s2.q.last_pkt = none :=
  ⟨⟨by decide, by decide, by decide, by decide⟩,
   put_then_get_fifo fresh_state [(7, unitA), (3, unitB)]
     [GetCall.mk av_packet_defaults 1 [], GetCall.mk unitA 0 []]
     (by decide) (by decide) (by decide) (by decide)⟩

/-- C2, counterexample: in the scenario put(A, size 10), put(B, size 20), get
(returns A, size now 20), flush, the flush leaves size 0 but the serial is
the one before the flush: it is neither greater nor the old serial plus 1. -/
theorem flush_serial_counterexample :
    packet_queue_put fresh_state unitA (some 7) true =
        some (0, one_unit_state, av_packet_defaults) ∧
      packet_queue_put one_unit_state unitB (some 3) true =
        some (0, two_unit_state, av_packet_defaults) ∧
      packet_queue_get two_unit_state av_packet_defaults 1 [] = some (1, unitB_state, unitA) ∧
      unitB_state.q.size = 20 ∧
      packet_queue_flush unitB_state = some fresh_state ∧
      fresh_state.q.size = 0 ∧
      ¬ (unitB_state.q.serial < fresh_state.q.serial) ∧
      fresh_state.q.serial ≠ unitB_state.q.serial + 1 := by
  decide

/-- C2, amended: `packet_queue_flush` leaves the serial of every queue as it
was; in the scenario put(A, size 10), put(B, size 20), get (returns A, size
now 20), flush, on any empty queue and with any nodes that are not live, the
size is 0 and the serial is the one before the flush. -/
theorem flush_keeps_serial :
    (∀ (s : State) (l : List (Nat × AVPacket)), Queued s l →
      ∃ s1, packet_queue_flush s = some s1 ∧ s1.q.serial = s.q.serial) ∧
    (∀ (s0 : State) (A B out : AVPacket) (n1 n2 : Nat) (block : Int) (env : List (Int × State)),
      EmptyQueue s0 → A.size = 10 → B.size = 20 → n1 ≠ n2 →
      s0.heap.read n1 = none → s0.heap.read n2 = none →
      ∃ s1 s2 s3 s4,
        packet_queue_put s0 A (some n1) true = some (0, s1, av_packet_defaults) ∧
        packet_queue_put s1 B (some n2) true = some (0, s2, av_packet_defaults) ∧
        packet_queue_get s2 out block env = some (1, s3, A) ∧ s3.q.size = 20 ∧
        packet_queue_flush s3 = some s4 ∧ s4.q.size = 0 ∧ s4.q.serial = s3.q.serial) := by
  constructor
  · intro s l hq
    obtain ⟨h1, hrun, -, -⟩ := flush_queued s l hq
    exact ⟨_, hrun, rfl⟩
  · intro s0 A B out n1 n2 block env hempty hA hB hne hf1 hf2
    obtain ⟨hf, hl, hnb, hsz⟩ := hempty
    have hq0 : Queued s0 [] := (queued_nil_iff s0).mpr ⟨hf, hl⟩
    obtain ⟨s1, hput1, hq1, -, hsz1, -, hframe1⟩ := put_queued s0 [] hq0 A n1 hf1
    have hf2a : s1.heap.read n2 = none := by
      rw [hframe1 n2 (fun e => hne e.symm) (by simp [addrs])]
      exact hf2
    obtain ⟨s2, hput2, hq2, -, hsz2, -, -⟩ := put_queued s1 _ hq1 B n2 hf2a
    obtain ⟨s3, hget, hq3, -, hsz3, -, -⟩ :=
      get_queued s2 n1 A [(n2, B)] (by simpa using hq2) out block env
    obtain ⟨h4, hrun, -, -⟩ := flush_queued s3 _ hq3
    refine ⟨s1, s2, s3, _, hput1, hput2, hget, ?_, hrun, rfl, rfl⟩
    rw [hsz3, hsz2, hsz1, hsz, hA, hB]
    decide

/-- Witness of C2 (amended): the flush of the queue holding `unitB`, and the
scenario on the fresh queue with nodes 7 and 3. -/
theorem flush_keeps_serial_witness :
    (Queued unitB_state [(3, unitB)] ∧
      ∃ s1, packet_queue_flush unitB_state = some s1 ∧ s1.q.serial = unitB_state.q.serial) ∧
    ((EmptyQueue fresh_state ∧ unitA.size = 10 ∧ unitB.size = 20 ∧ (7 : Nat) ≠ 3 ∧
        fresh_state.heap.read 7 = none ∧ fresh_state.heap.read 3 = none) ∧
      ∃ s1 s2 s3 s4,
        packet_queue_put fresh_state unitA (some 7) true = some (0, s1, av_packet_defaults) ∧
        packet_queue_put s1 unitB (some 3) true = some (0, s2, av_packet_defaults) ∧
        packet_queue_get s2 av_packet_defaults 1 [] = some (1, s3, unitA) ∧ s3.q.size = 20 ∧
        packet_queue_flush s3 = some s4 ∧ s4.q.size = 0 ∧ s4.q.serial = s3.q.serial) :=
  ⟨⟨by decide, flush_keeps_serial.1 unitB_state [(3, unitB)] (by decide)⟩,
   ⟨by decide, flush_keeps_serial.2 fresh_state unitA unitB av_packet_defaults 7 3 1 []
     (by decide) (by decide) (by decide) (by decide) (by decide) (by decide)⟩⟩

/-- C3: for every queue that holds a list, of any length,
`packet_queue_flush` returns and leaves the queue empty: `first_pkt` and
`last_pkt` are null, `nb_packets`, `size` and `duration` are 0 and the nodes
of the list are released, so that a following non-blocking
`packet_queue_get` returns 0 and changes nothing. -/
theorem flush_empties (s : State) (l : List (Nat × AVPacket)) (hq : Queued s l) :
    ∃ s1, packet_queue_flush s = some s1 ∧
      s1.q.first_pkt = none ∧ s1.q.last_pkt = none ∧ s1.q.nb_packets = 0 ∧ s1.q.size = 0 ∧
      s1.q.duration = 0 ∧ (∀ a ∈ addrs l, s1.heap.read a = none) ∧
      ∀ (out : AVPacket) (env : List (Int × State)),
        packet_queue_get s1 out 0 env = some (0, s1, out) := by
  obtain ⟨h1, hrun, hdead, -⟩ := flush_queued s l hq
  exact ⟨_, hrun, rfl, rfl, rfl, rfl, rfl, hdead, fun out env => get_nonblock_empty _ rfl out env⟩

/-- Witness of C3: the flush of the queue that holds two units. -/
theorem flush_empties_witness :
    Queued two_unit_state [(7, unitA), (3, unitB)] ∧
    ∃ s1, packet_queue_flush two_unit_state = some s1 ∧
      s1.q.first_pkt = none ∧ s1.q.last_pkt = none ∧ s1.q.nb_packets = 0 ∧ s1.q.size = 0 ∧
      s1.q.duration = 0 ∧ (∀ a ∈ addrs [(7, unitA), (3, unitB)], s1.heap.read a = none) ∧
      ∀ (out : AVPacket) (env : List (Int × State)),
        packet_queue_get s1 out 0 env = some (0, s1, out) :=
  ⟨by decide, flush_empties two_unit_state [(7, unitA), (3, unitB)] (by decide)⟩

/-- C4, counterexample: after `packet_queue_abort`, a blocking
`packet_queue_get` on the queue that still holds `unitA` returns 1 with that
unit, and a non-blocking one on the empty queue returns 0; neither returns
-1. -/
theorem get_after_abort_counterexample :
    packet_queue_put fresh_state unitA (some 7) true =
        some (0, one_unit_state, av_packet_defaults) ∧
      packet_queue_get (packet_queue_abort one_unit_state) av_packet_defaults 1 [] =
        some (1, packet_queue_abort fresh_state, unitA) ∧
      packet_queue_get (packet_queue_abort fresh_state) av_packet_defaults 0 [] =
        some (0, packet_queue_abort fresh_state, av_packet_defaults) := by
  decide

/-- C4, amended: on every queue whose abort flag is set, as
`packet_queue_abort` leaves it, a blocking `packet_queue_get` that finds the
queue empty returns -1 without waiting (for every environment, the empty one
included) and changes nothing; a get that finds units queued returns 1 with
the first unit and keeps the flag, and a non-blocking get that finds the
queue empty returns 0. -/
theorem get_after_abort (s0 : State) :
    (packet_queue_abort s0).q.abort_request ≠ 0 ∧
    ∀ (s : State) (out : AVPacket) (block : Int) (env : List (Int × State)),
      s.q.abort_request ≠ 0 →
      (s.q.first_pkt = none → block ≠ 0 →
        packet_queue_get s out block env = some (-1, s, out) ∧
        packet_queue_get s out block [] = some (-1, s, out)) ∧
      (s.q.first_pkt = none → block = 0 → packet_queue_get s out block env = some (0, s, out)) ∧
      (∀ a u rest, Queued s ((a, u) :: rest) →
        ∃ s1, packet_queue_get s out block env = some (1, s1, u) ∧
          s1.q.abort_request = s.q.abort_request ∧ Queued s1 rest) := by
  refine ⟨by simp [packet_queue_abort], ?_⟩
  intro s out block env hab
  refine ⟨?_, ?_, ?_⟩
  · intro hfirst hblock
    exact ⟨get_block_empty_aborted s hfirst hab out block hblock env,
      get_block_empty_aborted s hfirst hab out block hblock []⟩
  · intro hfirst hblock
    subst hblock
    exact get_nonblock_empty s hfirst out env
  · intro a u rest hq
    obtain ⟨s1, hget, hq1, -, -, hc, -⟩ := get_queued s a u rest hq out block env
    exact ⟨s1, hget, hc.2.1, hq1⟩

/-- Witness of C4 (amended): a blocking get on the aborted empty queue, and a
get on the aborted queue that holds `unitA`. -/
theorem get_after_abort_witness :
    ((packet_queue_abort fresh_state).q.abort_request ≠ 0 ∧
      (packet_queue_abort fresh_state).q.first_pkt = none ∧ (1 : Int) ≠ 0 ∧
      packet_queue_get (packet_queue_abort fresh_state) unitB 1 [] =
        some (-1, packet_queue_abort fresh_state, unitB)) ∧
    ((0 : Int) = 0 ∧
      packet_queue_get (packet_queue_abort fresh_state) unitB 0 [] =
        some (0, packet_queue_abort fresh_state, unitB)) ∧
    (Queued (packet_queue_abort one_unit_state) [(7, unitA)] ∧
      ∃ s1, packet_queue_get (packet_queue_abort one_unit_state) unitB 1 [] = some (1, s1, unitA) ∧
        s1.q.abort_request = (packet_queue_abort one_unit_state).q.abort_request ∧
        Queued s1 []) :=
  ⟨⟨by decide, by decide, by decide,
    (((get_after_abort fresh_state).2 (packet_queue_abort fresh_state) unitB 1 []
      (by decide)).1 (by decide) (by decide)).1⟩,
   ⟨rfl,
    ((get_after_abort fresh_state).2 (packet_queue_abort fresh_state) unitB 0 []
      (by decide)).2.1 (by decide) rfl⟩,
   ⟨by decide,
    ((get_after_abort one_unit_state).2 (packet_queue_abort one_unit_state) unitB 1 []
      (by decide)).2.2 7 unitA [] (by decide)⟩⟩

/-- C5: the well-formedness predicate (`nb_packets` is the number of nodes of
the null-terminated list at `first_pkt`, `last_pkt` is its last node, `size`
is the sum of the sizes of the queued units) holds after
`packet_queue_init`, makes `nb_packets = 0`, `first_pkt` null and `last_pkt`
null equivalent, and is preserved by `packet_queue_put`,
`packet_queue_put_nullpacket`, `packet_queue_get` (which returns 1, 0 or -1,
or is still waiting on an empty queue), `packet_queue_flush` and
`packet_queue_abort`.  The allocator returns nodes that are not live, the
signed additions and subtractions of the call stay in the range of `int`,
and the states the other threads leave during a wait are well formed. -/
theorem wellformed_invariant :
    (∀ (s : State) (mutex cond : Option Nat), WellFormed (packet_queue_init s mutex cond).2) ∧
    (∀ (s : State), WellFormed s →
      (s.q.nb_packets = 0 ↔ s.q.first_pkt = none) ∧
      (s.q.first_pkt = none ↔ s.q.last_pkt = none)) ∧
    (∀ (s : State) (pkt : AVPacket) (node : Option Nat) (pkt_ok : Bool), WellFormed s →
      (∀ n, node = some n → s.heap.read n = none) → put_in_range s pkt →
      ∃ r s1 p1, packet_queue_put s pkt node pkt_ok = some (r, s1, p1) ∧ WellFormed s1) ∧
    (∀ (s : State) (stream_index : Int) (node : Option Nat) (pkt_ok : Bool), WellFormed s →
      (∀ n, node = some n → s.heap.read n = none) →
      inInt (s.q.nb_packets + 1) → inInt s.q.size →
      ∃ r s1, packet_queue_put_nullpacket s stream_index true node pkt_ok = some (r, s1) ∧
        WellFormed s1) ∧
    (∀ (s : State) (out : AVPacket) (block : Int) (env : List (Int × State)), WellFormed s →
      get_in_range s → (∀ e ∈ env, WellFormed e.2 ∧ get_in_range e.2) →
      (packet_queue_get s out block env = none → s.q.first_pkt = none ∧ block ≠ 0) ∧
      (∀ r s1 u, packet_queue_get s out block env = some (r, s1, u) →
        WellFormed s1 ∧ (r = 1 ∨ r = 0 ∨ r = -1))) ∧
    (∀ (s : State), WellFormed s →
      ∃ s1, packet_queue_flush s = some s1 ∧ WellFormed s1) ∧
    (∀ (s : State), WellFormed s → WellFormed (packet_queue_abort s)) := by
  refine ⟨?_, wellFormed_empty_iff, ?_, ?_, ?_, ?_, ?_⟩
  · intro s mutex cond
    refine ⟨[], ?_, ?_, ?_⟩
    · cases mutex with
      | none => simp [packet_queue_init, zeroed, Queued, seg_nil]
      | some m => cases cond <;> simp [packet_queue_init, zeroed, Queued, seg_nil]
    · cases mutex with
      | none => simp [packet_queue_init, zeroed]
      | some m => cases cond <;> simp [packet_queue_init, zeroed]
    · cases mutex with
      | none => simp [packet_queue_init, zeroed, total_size]
      | some m => cases cond <;> simp [packet_queue_init, zeroed, total_size]
  · intro s pkt node pkt_ok hwf hfresh hrange
    by_cases hfail : node = none ∨ pkt_ok = false
    · exact ⟨-1, s, pkt, put_alloc_failure s pkt node pkt_ok hfail, hwf⟩
    · cases node with
      | none => exact absurd (Or.inl rfl) hfail
      | some n =>
        cases pkt_ok with
        | false => exact absurd (Or.inr rfl) hfail
        | true =>
          obtain ⟨s1, hput, hwf1⟩ := put_wellFormed s hwf pkt n (hfresh n rfl) hrange
          exact ⟨0, s1, _, hput, hwf1⟩
  · intro s stream_index node pkt_ok hwf hfresh hnb hsz
    rw [put_nullpacket_eq]
    by_cases hfail : node = none ∨ pkt_ok = false
    · rw [put_alloc_failure s _ node pkt_ok hfail]
      exact ⟨-1, s, rfl, hwf⟩
    · cases node with
      | none => exact absurd (Or.inl rfl) hfail
      | some n =>
        cases pkt_ok with
        | false => exact absurd (Or.inr rfl) hfail
        | true =>
          obtain ⟨s1, hput, hwf1⟩ :=
            put_wellFormed s hwf { av_packet_defaults with stream_index := stream_index } n
              (hfresh n rfl) ⟨hnb, by simpa [av_packet_defaults] using hsz⟩
          rw [hput]
          exact ⟨0, s1, rfl, hwf1⟩
  · intro s out block env hwf hrange henv
    constructor
    · intro hnone
      exact get_loop_none out block env.length s env hwf hnone
    · intro r s1 u hget
      have := get_loop_wellFormed out block (env.length + 1) s env hwf hrange henv
      simp only [packet_queue_get] at hget
      rw [hget] at this
      exact this
  · intro s hwf
    obtain ⟨l, hq, -, -⟩ := hwf
    obtain ⟨h1, hrun, -, -⟩ := flush_queued s l hq
    exact ⟨_, hrun, [], by simp [Queued, seg_nil], rfl, rfl⟩
  · intro s hwf
    obtain ⟨l, hq, hnb, hsz⟩ := hwf
    exact ⟨l, hq, hnb, hsz⟩

/-- Witness of C5: every part of the invariant at concrete queues; the get
waits twice on the empty queue (a timeout, then a wake-up after an abort)
and returns -1. -/
theorem wellformed_invariant_witness :
    WellFormed (packet_queue_init two_unit_state (some 5) (some 6)).2 ∧
    (WellFormed one_unit_state ∧
      (one_unit_state.q.nb_packets = 0 ↔ one_unit_state.q.first_pkt = none) ∧
      (one_unit_state.q.first_pkt = none ↔ one_unit_state.q.last_pkt = none)) ∧
    ((WellFormed one_unit_state ∧ (∀ n, some 3 = some n → one_unit_state.heap.read n = none) ∧
        put_in_range one_unit_state unitB) ∧
      ∃ r s1 p1, packet_queue_put one_unit_state unitB (some 3) true = some (r, s1, p1) ∧
        WellFormed s1) ∧
    ((WellFormed one_unit_state ∧ (∀ n, some 3 = some n → one_unit_state.heap.read n = none) ∧
        inInt (one_unit_state.q.nb_packets + 1) ∧ inInt one_unit_state.q.size) ∧
      ∃ r s1, packet_queue_put_nullpacket one_unit_state 1 true (some 3) true = some (r, s1) ∧
        WellFormed s1) ∧
    ((WellFormed fresh_state ∧ get_in_range fresh_state ∧
        (∀ e ∈ [((1 : Int), fresh_state), (0, packet_queue_abort fresh_state)],
          WellFormed e.2 ∧ get_in_range e.2) ∧
        packet_queue_get fresh_state unitA 1
            [(1, fresh_state), (0, packet_queue_abort fresh_state)] =
          some (-1, packet_queue_abort fresh_state, unitA)) ∧
      WellFormed (packet_queue_abort fresh_state) ∧
      ((-1 : Int) = 1 ∨ (-1 : Int) = 0 ∨ (-1 : Int) = -1)) ∧
    (WellFormed two_unit_state ∧
      ∃ s1, packet_queue_flush two_unit_state = some s1 ∧ WellFormed s1) ∧
    (WellFormed one_unit_state ∧ WellFormed (packet_queue_abort one_unit_state)) := by
  have wf0 : WellFormed fresh_state := ⟨[], by decide, by decide, by decide⟩
  have wf0a : WellFormed (packet_queue_abort fresh_state) :=
    ⟨[], by decide, by decide, by decide⟩
  have wf1 : WellFormed one_unit_state := ⟨[(7, unitA)], by decide, by decide, by decide⟩
  have wf2 : WellFormed two_unit_state :=
    ⟨[(7, unitA), (3, unitB)], by decide, by decide, by decide⟩
  have hfresh : ∀ n, some 3 = some n → one_unit_state.heap.read n = none := by
    intro n hn
    cases hn
    decide
  have henv : ∀ e ∈ [((1 : Int), fresh_state), (0, packet_queue_abort fresh_state)],
      WellFormed e.2 ∧ get_in_range e.2 := by
    intro e he
    simp only [List.mem_cons, List.mem_singleton, List.not_mem_nil, or_false] at he
    rcases he with rfl | rfl
    · exact ⟨wf0, by decide⟩
    · exact ⟨wf0a, by decide⟩
  exact ⟨wellformed_invariant.1 two_unit_state (some 5) (some 6),
    ⟨wf1, wellformed_invariant.2.1 one_unit_state wf1⟩,
    ⟨⟨wf1, hfresh, by decide⟩,
      wellformed_invariant.2.2.1 one_unit_state unitB (some 3) true wf1 hfresh (by decide)⟩,
    ⟨⟨wf1, hfresh, by decide, by decide⟩,
      wellformed_invariant.2.2.2.1 one_unit_state 1 (some 3) true wf1 hfresh (by decide)
        (by decide)⟩,
    ⟨⟨wf0, by decide, henv, by decide⟩,
      (wellformed_invariant.2.2.2.2.1 fresh_state unitA 1
        [(1, fresh_state), (0, packet_queue_abort fresh_state)] wf0 (by decide) henv).2
        (-1) (packet_queue_abort fresh_state) unitA (by decide)⟩,
    ⟨wf2, wellformed_invariant.2.2.2.2.2.1 two_unit_state wf2⟩,
    ⟨wf1, wellformed_invariant.2.2.2.2.2.2 one_unit_state wf1⟩⟩

/-- C6: on every queue whose `first_pkt` is null, `packet_queue_get` with
`block = 0` returns 0 for every environment (it never waits), whatever the
abort flag is, and leaves the whole state and the caller's output packet
unchanged. -/
theorem get_nonblocking_on_empty (s : State) (hfirst : s.q.first_pkt = none) (out : AVPacket)
    (env : List (Int × State)) :
    packet_queue_get s out 0 env = some (0, s, out) ∧
      packet_queue_get s out 0 [] = some (0, s, out) ∧
      packet_queue_get (packet_queue_abort s) out 0 env = some (0, packet_queue_abort s, out) :=
  ⟨get_nonblock_empty s hfirst out env, get_nonblock_empty s hfirst out [],
   get_nonblock_empty (packet_queue_abort s) hfirst out env⟩

/-- Witness of C6: a non-blocking get on the fresh queue. -/
theorem get_nonblocking_on_empty_witness :
    fresh_state.q.first_pkt = none ∧
    (packet_queue_get fresh_state unitA 0 [(0, one_unit_state)] = some (0, fresh_state, unitA) ∧
      packet_queue_get fresh_state unitA 0 [] = some (0, fresh_state, unitA) ∧
      packet_queue_get (packet_queue_abort fresh_state) unitA 0 [(0, one_unit_state)] =
        some (0, packet_queue_abort fresh_state, unitA)) :=
  ⟨by decide, get_nonblocking_on_empty fresh_state (by decide) unitA [(0, one_unit_state)]⟩

/-- C7: `packet_queue_put` returns -1 exactly when `av_malloc` or
`av_packet_alloc` fails, and then the state and the caller's packet are
unchanged; otherwise, on every queue that holds a list `l`, aborted or not,
and with a node that is not live, it returns 0, the queue holds `l` followed
by the new unit, `nb_packets` grows by 1 and `size` by the size of the unit
(exactly so when the sum is in the range of `int`), and `serial`,
`abort_request` and `duration` are unchanged. -/
theorem put_contract (s : State) (pkt : AVPacket) (node : Option Nat) (pkt_ok : Bool) :
    ((packet_queue_put s pkt node pkt_ok).map (fun r => r.1) = some (-1) ↔
      (node = none ∨ pkt_ok = false)) ∧
    ((node = none ∨ pkt_ok = false) → packet_queue_put s pkt node pkt_ok = some (-1, s, pkt)) ∧
    (∀ (n : Nat) (l : List (Nat × AVPacket)), node = some n → pkt_ok = true → Queued s l →
      s.heap.read n = none →
      ∃ s1, packet_queue_put s pkt node pkt_ok = some (0, s1, av_packet_defaults) ∧
        Queued s1 (l ++ [(n, pkt)]) ∧ units (l ++ [(n, pkt)]) = units l ++ [pkt] ∧
        s1.q.nb_packets = wrap32 (s.q.nb_packets + 1) ∧
        (inInt (s.q.nb_packets + 1) → s1.q.nb_packets = s.q.nb_packets + 1) ∧
        s1.q.size = wrap32 (s.q.size + pkt.size) ∧
        (inInt (s.q.size + pkt.size) → s1.q.size = s.q.size + pkt.size) ∧
        s1.q.serial = s.q.serial ∧ s1.q.abort_request = s.q.abort_request ∧
        s1.q.duration = s.q.duration) := by
  refine ⟨put_minus_one_iff s pkt node pkt_ok, put_alloc_failure s pkt node pkt_ok, ?_⟩
  intro n l hnode hok hq hfresh
  subst hnode
  subst hok
  obtain ⟨s1, hput, hq1, hnb1, hsz1, hc, -⟩ := put_queued s l hq pkt n hfresh
  refine ⟨s1, hput, hq1, by simp [units], hnb1, ?_, hsz1, ?_, hc.2.2.1, hc.2.1, hc.1⟩
  · intro h
    rw [hnb1, wrap32_of_inInt h]
  · intro h
    rw [hsz1, wrap32_of_inInt h]

/-- Witness of C7: a failed allocation on the queue that holds `unitA`, and a
successful put of `unitB` on that queue after an abort. -/
theorem put_contract_witness :
    (((some 3 : Option Nat) = none ∨ false = false) ∧
      packet_queue_put one_unit_state unitB (some 3) false = some (-1, one_unit_state, unitB)) ∧
    ((Queued (packet_queue_abort one_unit_state) [(7, unitA)] ∧
        (packet_queue_abort one_unit_state).heap.read 3 = none ∧
        inInt ((packet_queue_abort one_unit_state).q.nb_packets + 1) ∧
        inInt ((packet_queue_abort one_unit_state).q.size + unitB.size)) ∧
      ∃ s1, packet_queue_put (packet_queue_abort one_unit_state) unitB (some 3) true =
          some (0, s1, av_packet_defaults) ∧
        Queued s1 ([(7, unitA)] ++ [(3, unitB)]) ∧
        s1.q.nb_packets = (packet_queue_abort one_unit_state).q.nb_packets + 1 ∧
        s1.q.size = (packet_queue_abort one_unit_state).q.size + unitB.size ∧
        s1.q.serial = (packet_queue_abort one_unit_state).q.serial ∧
        s1.q.abort_request = (packet_queue_abort one_unit_state).q.abort_request) := by
  obtain ⟨s1, hput, hq, -, -, hnb, -, hsz, hser, hab, -⟩ :=
    (put_contract (packet_queue_abort one_unit_state) unitB (some 3) true).2.2 3 [(7, unitA)]
      rfl rfl (by decide) (by decide)
  exact ⟨⟨by decide, (put_contract one_unit_state unitB (some 3) false).2.1 (by decide)⟩,
    ⟨by decide, by decide, by decide, by decide⟩,
    s1, hput, hq, hnb (by decide), hsz (by decide), hser, hab⟩

/-- C8: on every queue that holds a list `l`, a `packet_queue_put_nullpacket`
whose allocations succeed (with a node that is not live) returns 0 and
appends exactly one unit at the tail, of size 0, with null data and the given
`stream_index`; `nb_packets` grows by 1 and `size` is unchanged; the get that
follows as many gets as there were units before returns 1 with a packet of
that `stream_index` and of size 0.  A call returns 0 only when all three
allocations succeed. -/
theorem put_nullpacket_contract (s : State) (stream_index : Int) (n : Nat)
    (l : List (Nat × AVPacket)) (hq : Queued s l) (hfresh : s.heap.read n = none) :
    (∀ tmp_ok node pkt_ok s1,
      packet_queue_put_nullpacket s stream_index tmp_ok node pkt_ok = some (0, s1) →
      tmp_ok = true ∧ node ≠ none ∧ pkt_ok = true) ∧
    ∃ s1 u, packet_queue_put_nullpacket s stream_index true (some n) true = some (0, s1) ∧
      Queued s1 (l ++ [(n, u)]) ∧ u.size = 0 ∧ u.data = none ∧ u.stream_index = stream_index ∧
      s1.q.nb_packets = wrap32 (s.q.nb_packets + 1) ∧
      (inInt (s.q.nb_packets + 1) → s1.q.nb_packets = s.q.nb_packets + 1) ∧
      (inInt s.q.size → s1.q.size = s.q.size) ∧
      ∀ (calls : List GetCall) (out : AVPacket) (block : Int) (env : List (Int × State)),
        calls.length = l.length →
        ∃ s2 s3 got, get_all s1 calls = some ((units l).map (fun v => (1, v)), s2) ∧
          packet_queue_get s2 out block env = some (1, s3, got) ∧
          got.stream_index = stream_index ∧ got.size = 0 ∧ got.data = none := by
  constructor
  · intro tmp_ok node pkt_ok s1 h
    cases tmp_ok with
    | false => simp [packet_queue_put_nullpacket] at h
    | true =>
      refine ⟨rfl, ?_⟩
      rw [put_nullpacket_eq] at h
      by_cases hfail : node = none ∨ pkt_ok = false
      · rw [put_alloc_failure s _ node pkt_ok hfail] at h
        simp at h
      · cases node with
        | none => exact absurd (Or.inl rfl) hfail
        | some m =>
          cases pkt_ok with
          | false => exact absurd (Or.inr rfl) hfail
          | true => simp
  · obtain ⟨s1, hput, hq1, hnb1, hsz1, -, -⟩ :=
      put_queued s l hq { av_packet_defaults with stream_index := stream_index } n hfresh
    refine ⟨s1, { av_packet_defaults with stream_index := stream_index }, ?_, hq1, rfl, rfl, rfl,
      hnb1, ?_, ?_, ?_⟩
    · rw [put_nullpacket_eq, hput]
      rfl
    · intro h
      rw [hnb1, wrap32_of_inInt h]
    · intro h
      rw [hsz1]
      simpa [av_packet_defaults] using wrap32_of_inInt h
    · intro calls out block env hlen
      obtain ⟨s2, hgets, hq2, -, -, -⟩ :=
        get_all_queued l s1 [(n, { av_packet_defaults with stream_index := stream_index })]
          calls hq1 hlen (hnb1 ▸ wrap32_inInt _) (hsz1 ▸ wrap32_inInt _)
      obtain ⟨s3, hget, -⟩ := get_queued s2 n _ [] hq2 out block env
      exact ⟨s2, s3, _, hgets, hget, rfl, rfl, rfl⟩

/-- Witness of C8: a null packet for stream 1 put behind `unitA`; the second
get returns it. -/
theorem put_nullpacket_contract_witness :
    (Queued one_unit_state [(7, unitA)] ∧ one_unit_state.heap.read 3 = none ∧
      inInt (one_unit_state.q.nb_packets + 1) ∧ inInt one_unit_state.q.size ∧
      [GetCall.mk unitB 1 []].length = [(7, unitA)].length) ∧
    ∃ s1 u, packet_queue_put_nullpacket one_unit_state 1 true (some 3) true = some (0, s1) ∧
      Queued s1 ([(7, unitA)] ++ [(3, u)]) ∧ u.size = 0 ∧ u.data = none ∧ u.stream_index = 1 ∧
      s1.q.nb_packets = one_unit_state.q.nb_packets + 1 ∧
      s1.q.size = one_unit_state.q.size ∧
      ∃ s2 s3 got,
        get_all s1 [GetCall.mk unitB 1 []] =
          some ((units [(7, unitA)]).map (fun v => (1, v)), s2) ∧
        packet_queue_get s2 unitB 0 [] = some (1, s3, got) ∧
        got.stream_index = 1 ∧ got.size = 0 ∧ got.data = none := by
  obtain ⟨s1, u, hput, hq, h1, h2, h3, -, hnb, hsz, hget⟩ :=
    (put_nullpacket_contract one_unit_state 1 3 [(7, unitA)] (by decide) (by decide)).2
  exact ⟨⟨by decide, by decide, by decide, by decide, by decide⟩,
    s1, u, hput, hq, h1, h2, h3, hnb (by decide), hsz (by decide),
    hget [GetCall.mk unitB 1 []] unitB 0 [] (by decide)⟩

/-- C9: `packet_queue_init` returns 0 exactly when both `SDL_CreateMutex` and
`SDL_CreateCond` return a handle, and then the queue is in the starting
state (empty list, `nb_packets`, `size`, `duration`, `serial` and
`abort_request` all 0, the two handles stored), whatever the queue held
before; when either handle is null it returns `AVERROR(ENOMEM)`, which is
negative. -/
theorem init_contract (s : State) (mutex cond : Option Nat) :
    ((packet_queue_init s mutex cond).1 = 0 ↔ (mutex ≠ none ∧ cond ≠ none)) ∧
    ((mutex ≠ none ∧ cond ≠ none) →
      (packet_queue_init s mutex cond).2.q =
        { first_pkt := none, last_pkt := none, nb_packets := 0, size := 0, duration := 0,
          abort_request := 0, serial := 0, mutex := mutex, cond := cond } ∧
      Queued (packet_queue_init s mutex cond).2 []) ∧
    ((mutex = none ∨ cond = none) →
      (packet_queue_init s mutex cond).1 = AVERROR ENOMEM ∧
      (packet_queue_init s mutex cond).1 < 0) := by
  cases mutex with
  | none => simp [packet_queue_init, zeroed, AVERROR, ENOMEM]
  | some m =>
    cases cond with
    | none => simp [packet_queue_init, zeroed, AVERROR, ENOMEM]
    | some c => simp [packet_queue_init, zeroed, AVERROR, ENOMEM, Queued, seg_nil]

/-- Witness of C9: a successful initialisation of a queue that held two units
and a failed creation of the condition variable. -/
theorem init_contract_witness :
    (((some 5 : Option Nat) ≠ none ∧ (some 6 : Option Nat) ≠ none) ∧
      (packet_queue_init two_unit_state (some 5) (some 6)).2.q =
        { first_pkt := none, last_pkt := none, nb_packets := 0, size := 0, duration := 0,
          abort_request := 0, serial := 0, mutex := some 5, cond := some 6 } ∧
      Queued (packet_queue_init two_unit_state (some 5) (some 6)).2 []) ∧
    (((some 5 : Option Nat) = none ∨ (none : Option Nat) = none) ∧
      (packet_queue_init two_unit_state (some 5) none).1 = AVERROR ENOMEM ∧
      (packet_queue_init two_unit_state (some 5) none).1 < 0) :=
  ⟨⟨by decide, (init_contract two_unit_state (some 5) (some 6)).2.1 (by decide)⟩,
   ⟨by decide, (init_contract two_unit_state (some 5) none).2.2 (by decide)⟩⟩

/-- C10: `packet_queue_abort` sets `abort_request` to 1 and changes nothing
else: the list pointers, the node memory (so the queued units and their
order), `nb_packets`, `size`, `duration`, `serial` and the handles are as
before; calling it twice gives the state of calling it once. -/
theorem abort_contract (s : State) :
    (packet_queue_abort s).q.abort_request = 1 ∧
      (packet_queue_abort s).q.first_pkt = s.q.first_pkt ∧
      (packet_queue_abort s).q.last_pkt = s.q.last_pkt ∧
      (packet_queue_abort s).heap = s.heap ∧
      (∀ l, Queued (packet_queue_abort s) l ↔ Queued s l) ∧
      (packet_queue_abort s).q.nb_packets = s.q.nb_packets ∧
      (packet_queue_abort s).q.size = s.q.size ∧
      (packet_queue_abort s).q.duration = s.q.duration ∧
      (packet_queue_abort s).q.serial = s.q.serial ∧
      (packet_queue_abort s).q.mutex = s.q.mutex ∧
      (packet_queue_abort s).q.cond = s.q.cond ∧
      packet_queue_abort (packet_queue_abort s) = packet_queue_abort s :=
  ⟨rfl, rfl, rfl, rfl, fun _ => Iff.rfl, rfl, rfl, rfl, rfl, rfl, rfl, rfl⟩

/-- C11: once `packet_queue_abort` has been called, `abort_request` is 1 after
every finite sequence of `packet_queue_put`, `packet_queue_put_nullpacket`,
`packet_queue_get`, `packet_queue_flush` and `packet_queue_abort` calls that
returns, and on a queue that holds a list every such sequence returns when
the allocator behaves (no get waits, since the flag is set); only
`packet_queue_init` writes 0 to the flag. -/
theorem abort_monotonic :
    (∀ (s0 : State) (ops : List QueueOp) (s1 : State),
      run_ops (packet_queue_abort s0) ops = some s1 → s1.q.abort_request = 1) ∧
    (∀ (s0 : State) (l : List (Nat × AVPacket)) (ops : List QueueOp), Queued s0 l →
      run_alloc_ok (packet_queue_abort s0) ops →
      ∃ s1, run_ops (packet_queue_abort s0) ops = some s1 ∧ s1.q.abort_request = 1) ∧
    (∀ (s : State) (mutex cond : Option Nat),
      (packet_queue_init s mutex cond).2.q.abort_request = 0) := by
  refine ⟨?_, ?_, ?_⟩
  · intro s0 ops s1 h
    exact run_ops_keeps_abort ops (packet_queue_abort s0) s1 rfl h
  · intro s0 l ops hq halloc
    obtain ⟨s1, hrun⟩ := run_ops_returns ops (packet_queue_abort s0) l hq rfl halloc
    exact ⟨s1, hrun, run_ops_keeps_abort ops (packet_queue_abort s0) s1 rfl hrun⟩
  · intro s mutex cond
    cases mutex with
    | none => simp [packet_queue_init, zeroed]
    | some m => cases cond <;> simp [packet_queue_init, zeroed]

/-- Witness of C11: after an abort of the queue that holds `unitA`, a run of a
get, a put, a flush, a blocking get on the empty queue, a null packet and a
second abort. -/
theorem abort_monotonic_witness :
    (Queued one_unit_state [(7, unitA)] ∧
      run_alloc_ok (packet_queue_abort one_unit_state)
        [QueueOp.get unitB 1 [], QueueOp.put unitB (some 3) true, QueueOp.flush,
         QueueOp.get unitB 1 [], QueueOp.put_nullpacket 1 true (some 5) true, QueueOp.abort]) ∧
    ∃ s1, run_ops (packet_queue_abort one_unit_state)
        [QueueOp.get unitB 1 [], QueueOp.put unitB (some 3) true, QueueOp.flush,
         QueueOp.get unitB 1 [], QueueOp.put_nullpacket 1 true (some 5) true, QueueOp.abort] =
        some s1 ∧ s1.q.abort_request = 1 :=
  ⟨⟨by decide, by decide⟩,
   abort_monotonic.2.1 one_unit_state [(7, unitA)] _ (by decide) (by decide)⟩

/-- C12: `init_clock` sets `speed = 1.0`, `paused = 0`, pts NaN and
`serial = -1`, and right after it `get_clock` is NaN for every queue serial
and wall time.  After `init_clock`, `get_clock` stays NaN through every
sequence of `set_clock` calls whose serials differ from the queue's serial,
and a following `set_clock` with the queue's serial makes it a number when
its pts is a number (the wall times being finite) and leaves it NaN when its
pts is NaN. -/
theorem clock_defined_after_matching_set (c : play_clock_t) (ref : serial_ref)
    (t_init : Double) (queue_serial : Int) (t : Double) :
    (init_clock c ref t_init).speed = d_1 ∧ (init_clock c ref t_init).paused = 0 ∧
    (init_clock c ref t_init).pts = NAN ∧ (init_clock c ref t_init).serial = -1 ∧
    get_clock (init_clock c ref t_init) queue_serial t = NAN ∧
    (∀ sets : List (Double × Int × Double), (∀ x ∈ sets, x.2.1 ≠ queue_serial) →
      get_clock (set_clock_all (init_clock c ref t_init) sets) queue_serial t = NAN) ∧
    (∀ (sets : List (Double × Int × Double)) (pts t0 : Double), pts ≠ NAN →
      t0.isFinite = true → t.isFinite = true →
      get_clock (set_clock (set_clock_all (init_clock c ref t_init) sets) pts queue_serial t0)
        queue_serial t ≠ NAN) ∧
    (∀ (sets : List (Double × Int × Double)) (t0 : Double),
      get_clock (set_clock (set_clock_all (init_clock c ref t_init) sets) NAN queue_serial t0)
        queue_serial t = NAN) := by
  have hinit : get_clock (init_clock c ref t_init) queue_serial t = NAN := by
    have hd : (init_clock c ref t_init).pts_drift = NAN := by
      show Double.sub Double.nan t_init = Double.nan
      exact Double.sub_nan_left t_init
    have hp : (init_clock c ref t_init).paused = 0 := rfl
    unfold get_clock
    split
    · rfl
    · rw [hp, hd]
      simp [NAN, Double.add_nan_left]
  have hpaused : ∀ sets : List (Double × Int × Double),
      (set_clock_all (init_clock c ref t_init) sets).paused = 0 := by
    intro sets
    rw [set_clock_all_paused]
    rfl
  refine ⟨rfl, rfl, rfl, rfl, hinit, ?_, ?_, ?_⟩
  · intro sets hall
    exact get_clock_set_all_mismatch queue_serial t sets _ hinit hall
  · intro sets pts t0 hpts ht0 ht
    rw [set_clock, get_clock_after_set _ (hpaused sets)]
    exact Double.add_ne_nan (Double.sub_ne_nan hpts ht0) ht
  · intro sets t0
    rw [set_clock, get_clock_after_set _ (hpaused sets)]
    simp [NAN, Double.sub_nan_left, Double.add_nan_left]

/-- Witness of C12: after `init_clock`, a set with serial 1 while the queue's
serial is 0 leaves the clock undefined, and a set of pts 5.0 with serial 0
makes it defined. -/
theorem clock_defined_after_matching_set_witness :
    ((∀ x ∈ [(d_5, (1 : Int), d_100)], x.2.1 ≠ 0) ∧
      get_clock (set_clock_all (init_clock zero_clock serial_ref.video_pkt_queue d_100)
        [(d_5, 1, d_100)]) 0 d_101 = NAN) ∧
    ((d_5 ≠ NAN ∧ d_100.isFinite = true ∧ d_101.isFinite = true) ∧
      get_clock (set_clock (set_clock_all (init_clock zero_clock serial_ref.video_pkt_queue d_100)
        [(d_5, 1, d_100)]) d_5 0 d_100) 0 d_101 ≠ NAN) :=
  ⟨⟨by decide,
    (clock_defined_after_matching_set zero_clock serial_ref.video_pkt_queue d_100 0
      d_101).2.2.2.2.2.1 [(d_5, 1, d_100)] (by decide)⟩,
   ⟨by decide,
    (clock_defined_after_matching_set zero_clock serial_ref.video_pkt_queue d_100 0
      d_101).2.2.2.2.2.2.1 [(d_5, 1, d_100)] d_5 d_100 (by decide) (by decide) (by decide)⟩⟩

/-- C13: `get_clock` returns NaN when the stored serial differs from the
queue's serial, whatever pts and `paused` are; otherwise the stored pts, for
every wall time, when `paused` is set; otherwise `pts_drift + t`.  (The
function has no assignment: its embedding returns the value only.) -/
theorem get_clock_cases (c : play_clock_t) (queue_serial : Int) (t : Double) :
    (queue_serial ≠ c.serial → get_clock c queue_serial t = NAN) ∧
    (queue_serial = c.serial → c.paused ≠ 0 →
      get_clock c queue_serial t = c.pts ∧ ∀ t1, get_clock c queue_serial t1 = c.pts) ∧
    (queue_serial = c.serial → c.paused = 0 →
      get_clock c queue_serial t = c.pts_drift.add t) := by
  refine ⟨?_, ?_, ?_⟩
  · intro hne
    simp [get_clock, hne]
  · intro heq hp
    constructor
    · simp [get_clock, heq, hp]
    · intro t1
      simp [get_clock, heq, hp]
  · intro heq hp
    simp [get_clock, heq, hp]

/-- Witness of C13: the scenario's video clock read with a stale serial, read
while paused, and read while running. -/
theorem get_clock_cases_witness :
    (((1 : Int) ≠ video_clock_5_3.serial) ∧ get_clock video_clock_5_3 1 d_101 = NAN) ∧
    (((0 : Int) = ({ video_clock_5_3 with paused := 1 } : play_clock_t).serial ∧
        ({ video_clock_5_3 with paused := 1 } : play_clock_t).paused ≠ 0) ∧
      get_clock { video_clock_5_3 with paused := 1 } 0 d_101 = d_5_3) ∧
    (((0 : Int) = video_clock_5_3.serial ∧ video_clock_5_3.paused = 0) ∧
      get_clock video_clock_5_3 0 d_101 = video_clock_5_3.pts_drift.add d_101) :=
  ⟨⟨by decide, (get_clock_cases video_clock_5_3 1 d_101).1 (by decide)⟩,
   ⟨⟨by decide, by decide⟩,
    ((get_clock_cases { video_clock_5_3 with paused := 1 } 0 d_101).2.1 (by decide)
      (by decide)).1⟩,
   ⟨⟨by decide, by decide⟩,
    (get_clock_cases video_clock_5_3 0 d_101).2.2 (by decide) (by decide)⟩⟩

set_option maxRecDepth 8192 in
/-- C14, counterexample: a running clock with `speed = 2.0`, set to pts 5.0 at
wall time 100.0, reads 6.0 at wall time 101.0, whereas
`pts + (t - t0) * speed` is 7.0. -/
theorem extrapolation_counterexample :
    ({ zero_clock with speed := d_2 } : play_clock_t).paused = 0 ∧
      (set_clock_at { zero_clock with speed := d_2 } d_5 0 d_100).speed = d_2 ∧
      get_clock (set_clock_at { zero_clock with speed := d_2 } d_5 0 d_100) 0 d_101 = d_6 ∧
      d_5.add ((d_101.sub d_100).mul d_2) = d_7 ∧ d_6 ≠ d_7 := by
  decide

/-- C14, amended: for every unpaused clock anchored by
`set_clock_at(c, pts, serial, t0)` with `serial` equal to the queue's serial,
and every wall time `t`, `get_clock` returns `pts_drift + t`, that is
`(pts - t0) + t` in binary64 arithmetic: the pts extrapolated by the elapsed
wall time at rate 1, the same for every value of the `speed` field. -/
theorem get_clock_extrapolation (c : play_clock_t) (speed pts : Double) (serial : Int)
    (t0 t : Double) (hrun : c.paused = 0) :
    (set_clock_at { c with speed := speed } pts serial t0).speed = speed ∧
      get_clock (set_clock_at { c with speed := speed } pts serial t0) serial t =
        (pts.sub t0).add t :=
  ⟨rfl, get_clock_after_set { c with speed := speed } hrun pts serial t0 t⟩

/-- Witness of C14 (amended): the clock of the counterexample. -/
theorem get_clock_extrapolation_witness :
    zero_clock.paused = 0 ∧
      (set_clock_at { zero_clock with speed := d_2 } d_5 0 d_100).speed = d_2 ∧
      get_clock (set_clock_at { zero_clock with speed := d_2 } d_5 0 d_100) 0 d_101 =
        (d_5.sub d_100).add d_101 :=
  ⟨by decide, get_clock_extrapolation zero_clock d_2 d_5 0 d_100 d_101 (by decide)⟩

set_option maxRecDepth 8192 in
/-- C16: at one wall time `t`, `sync_play_clock_to_slave` re-anchors `c`
(pts := the slave's current time, serial := the slave's serial,
`last_updated := t`, `pts_drift := pts - t`) when the slave's `get_clock` is
a number and `c`'s is NaN or differs from it by more than the threshold in
absolute value, and leaves `c` unchanged in every other case; the slave is
never changed.  Scenario: audio set to pts 5.0 and video to pts 5.3 at wall
time 100.0, threshold 0.1: the video clock is re-anchored to 5.0. -/
theorem sync_contract (c slave : play_clock_t) (serial_c serial_slave : Int)
    (threshold t : Double) :
    (sync_play_clock_to_slave c slave serial_c serial_slave threshold t t t).2 = slave ∧
    ((get_clock slave serial_slave t ≠ NAN ∧
        (get_clock c serial_c t = NAN ∨
          ((get_clock c serial_c t).sub (get_clock slave serial_slave t)).fabs.gt threshold
            = true)) →
      (sync_play_clock_to_slave c slave serial_c serial_slave threshold t t t).1 =
        { c with pts := get_clock slave serial_slave t, serial := slave.serial,
                 last_updated := t, pts_drift := (get_clock slave serial_slave t).sub t }) ∧
    (¬ (get_clock slave serial_slave t ≠ NAN ∧
        (get_clock c serial_c t = NAN ∨
          ((get_clock c serial_c t).sub (get_clock slave serial_slave t)).fabs.gt threshold
            = true)) →
      (sync_play_clock_to_slave c slave serial_c serial_slave threshold t t t).1 = c) ∧
    ((sync_play_clock_to_slave video_clock_5_3 audio_clock_5 0 0 d_0_1 d_100 d_100 d_100).1.pts
        = d_5 ∧
      get_clock
        (sync_play_clock_to_slave video_clock_5_3 audio_clock_5 0 0 d_0_1 d_100 d_100 d_100).1
        0 d_100 = d_5) := by
  have hcond : (!(get_clock slave serial_slave t).isnan &&
      ((get_clock c serial_c t).isnan ||
        ((get_clock c serial_c t).sub (get_clock slave serial_slave t)).fabs.gt threshold)) = true ↔
      (get_clock slave serial_slave t ≠ NAN ∧
        (get_clock c serial_c t = NAN ∨
          ((get_clock c serial_c t).sub (get_clock slave serial_slave t)).fabs.gt threshold
            = true)) := by
    simp [NAN, Double.isnan_iff, ← Bool.not_eq_true]
  refine ⟨?_, ?_, ?_, by decide⟩
  · unfold sync_play_clock_to_slave
    simp only
    split <;> rfl
  · intro h
    unfold sync_play_clock_to_slave
    simp only [hcond.mpr h, if_true]
    rfl
  · intro h
    unfold sync_play_clock_to_slave
    have hc : ¬ ((!(get_clock slave serial_slave t).isnan &&
      ((get_clock c serial_c t).isnan ||
        ((get_clock c serial_c t).sub (get_clock slave serial_slave t)).fabs.gt threshold))
          = true) := fun hx => h (hcond.mp hx)
    simp only [hc, if_false]
    rfl

set_option maxRecDepth 8192 in
/-- Witness of C16: the scenario (drift above the threshold 0.1), and the
same clocks with threshold 1.0, where the video clock is left unchanged. -/
theorem sync_contract_witness :
    ((get_clock audio_clock_5 0 d_100 ≠ NAN ∧
        (get_clock video_clock_5_3 0 d_100 = NAN ∨
          ((get_clock video_clock_5_3 0 d_100).sub (get_clock audio_clock_5 0 d_100)).fabs.gt
            d_0_1 = true)) ∧
      (sync_play_clock_to_slave video_clock_5_3 audio_clock_5 0 0 d_0_1 d_100 d_100 d_100).1 =
        { video_clock_5_3 with pts := get_clock audio_clock_5 0 d_100,
                               serial := audio_clock_5.serial, last_updated := d_100,
                               pts_drift := (get_clock audio_clock_5 0 d_100).sub d_100 }) ∧
    (¬ (get_clock audio_clock_5 0 d_100 ≠ NAN ∧
        (get_clock video_clock_5_3 0 d_100 = NAN ∨
          ((get_clock video_clock_5_3 0 d_100).sub (get_clock audio_clock_5 0 d_100)).fabs.gt
            d_1 = true)) ∧
      (sync_play_clock_to_slave video_clock_5_3 audio_clock_5 0 0 d_1 d_100 d_100 d_100).1 =
        video_clock_5_3) :=
  ⟨⟨by decide, (sync_contract video_clock_5_3 audio_clock_5 0 0 d_0_1 d_100).2.1 (by decide)⟩,
   ⟨by decide, (sync_contract video_clock_5_3 audio_clock_5 0 0 d_1 d_100).2.2.1 (by decide)⟩⟩

/-- C17: with `seek_req` already set, `stream_seek` changes no field; with
`seek_req` clear it sets `seek_pos`, `seek_rel` and `seek_req = 1` and
nothing else; a second call right after a first changes nothing, so
`seek_pos` and `seek_rel` stay those of the first call. -/
theorem stream_seek_first_wins (is : player_stat_t) (pos rel pos2 rel2 : Int) :
    (is.seek_req ≠ 0 → stream_seek is pos rel = is) ∧
    (is.seek_req = 0 →
      stream_seek is pos rel = { is with seek_pos := pos, seek_rel := rel, seek_req := 1 }) ∧
    stream_seek (stream_seek is pos rel) pos2 rel2 = stream_seek is pos rel ∧
    (is.seek_req = 0 →
      (stream_seek (stream_seek is pos rel) pos2 rel2).seek_pos = pos ∧
      (stream_seek (stream_seek is pos rel) pos2 rel2).seek_rel = rel ∧
      (stream_seek (stream_seek is pos rel) pos2 rel2).seek_req = 1) := by
  have h1 : is.seek_req ≠ 0 → stream_seek is pos rel = is := by
    intro h
    simp [stream_seek, h]
  have h2 : is.seek_req = 0 →
      stream_seek is pos rel = { is with seek_pos := pos, seek_rel := rel, seek_req := 1 } := by
    intro h
    simp [stream_seek, h]
  have h3 : stream_seek (stream_seek is pos rel) pos2 rel2 = stream_seek is pos rel := by
    by_cases h : is.seek_req = 0
    · rw [h2 h]
      simp [stream_seek]
    · rw [h1 h]
      simp [stream_seek, h]
  refine ⟨h1, h2, h3, ?_⟩
  intro h
  rw [h3, h2 h]
  exact ⟨rfl, rfl, rfl⟩

/-- Witness of C17: two seeks on the running player, and a seek on a player
with a pending seek. -/
theorem stream_seek_first_wins_witness :
    (({ running_player with seek_req := 1 } : player_stat_t).seek_req ≠ 0 ∧
      stream_seek { running_player with seek_req := 1 } 15000000 10000000 =
        { running_player with seek_req := 1 }) ∧
    (running_player.seek_req = 0 ∧
      stream_seek running_player 15000000 10000000 =
        { running_player with seek_pos := 15000000, seek_rel := 10000000, seek_req := 1 } ∧
      (stream_seek (stream_seek running_player 15000000 10000000) 75000000 60000000).seek_pos
        = 15000000 ∧
      (stream_seek (stream_seek running_player 15000000 10000000) 75000000 60000000).seek_rel
        = 10000000 ∧
      (stream_seek (stream_seek running_player 15000000 10000000) 75000000 60000000).seek_req
        = 1) :=
  ⟨⟨by decide,
    (stream_seek_first_wins { running_player with seek_req := 1 } 15000000 10000000 0 0).1
      (by decide)⟩,
   ⟨by decide,
    (stream_seek_first_wins running_player 15000000 10000000 0 0).2.1 (by decide),
    (stream_seek_first_wins running_player 15000000 10000000 75000000 60000000).2.2.2
      (by decide)⟩⟩

/-- C18: after `stream_toggle_pause` the `paused` flag of the player, of the
audio clock and of the video clock are all `!paused` of the player before
the call, whatever the clock flags were, so the three are equal; after two
consecutive toggles `paused` is `!!paused`, which is set exactly when it was
set before, and is the original value when that was 0 or 1.  `toggle_pause`
does the same and clears `step`. -/
theorem toggle_pause_flags (is : player_stat_t) (t1 t2 t3 u1 u2 u3 : Double) :
    (stream_toggle_pause is t1 t2 t3).paused = lnot is.paused ∧
    (stream_toggle_pause is t1 t2 t3).audio_clk.paused = lnot is.paused ∧
    (stream_toggle_pause is t1 t2 t3).video_clk.paused = lnot is.paused ∧
    ((stream_toggle_pause is t1 t2 t3).paused = (stream_toggle_pause is t1 t2 t3).audio_clk.paused ∧
      (stream_toggle_pause is t1 t2 t3).audio_clk.paused =
        (stream_toggle_pause is t1 t2 t3).video_clk.paused) ∧
    (stream_toggle_pause (stream_toggle_pause is t1 t2 t3) u1 u2 u3).paused =
      lnot (lnot is.paused) ∧
    ((stream_toggle_pause (stream_toggle_pause is t1 t2 t3) u1 u2 u3).paused ≠ 0 ↔
      is.paused ≠ 0) ∧
    ((is.paused = 0 ∨ is.paused = 1) →
      (stream_toggle_pause (stream_toggle_pause is t1 t2 t3) u1 u2 u3).paused = is.paused) ∧
    (toggle_pause is t1 t2 t3).step = 0 ∧
    (toggle_pause is t1 t2 t3).paused = lnot is.paused ∧
    (toggle_pause is t1 t2 t3).audio_clk.paused = lnot is.paused ∧
    (toggle_pause is t1 t2 t3).video_clk.paused = lnot is.paused := by
  obtain ⟨h1, h2, h3⟩ := stream_toggle_pause_paused is t1 t2 t3
  have h4 : (stream_toggle_pause (stream_toggle_pause is t1 t2 t3) u1 u2 u3).paused =
      lnot (lnot is.paused) := by
    rw [(stream_toggle_pause_paused _ u1 u2 u3).1, h1]
  refine ⟨h1, h2, h3, ⟨h1.trans h2.symm, h2.trans h3.symm⟩, h4, ?_, ?_, rfl, h1, h2, h3⟩
  · rw [h4]
    exact (lnot_lnot is.paused).1
  · intro h
    rw [h4]
    exact (lnot_lnot is.paused).2 h

/-- Witness of C18: the paused player, toggled twice. -/
theorem toggle_pause_flags_witness :
    (paused_player.paused = 0 ∨ paused_player.paused = 1) ∧
      (stream_toggle_pause (stream_toggle_pause paused_player d_101 d_101 d_101)
        d_1e6 d_1e6 d_1e6).paused = paused_player.paused :=
  ⟨by decide,
   (toggle_pause_flags paused_player d_101 d_101 d_101 d_1e6 d_1e6 d_1e6).2.2.2.2.2.2.1
     (by decide)⟩

/-- C19: on resume (`paused` set) `stream_toggle_pause` makes `frame_timer`
the binary64 sum of `frame_timer` and `t - video_clk.last_updated`, `t` being
the wall time it reads, where `last_updated` is the wall time passed to the
last `set_clock_at` of the video clock; on pause (`paused` clear)
`frame_timer` and the pts, `pts_drift`, `last_updated` and serial of both
clocks are unchanged. -/
theorem toggle_pause_frame_timer (is : player_stat_t) (t_timer t_get t_set : Double) :
    (is.paused ≠ 0 →
      (stream_toggle_pause is t_timer t_get t_set).frame_timer =
        is.frame_timer.add (t_timer.sub is.video_clk.last_updated)) ∧
    (∀ (c : play_clock_t) (pts : Double) (serial : Int) (time : Double),
      (set_clock_at c pts serial time).last_updated = time) ∧
    (is.paused = 0 →
      (stream_toggle_pause is t_timer t_get t_set).frame_timer = is.frame_timer ∧
      (stream_toggle_pause is t_timer t_get t_set).video_clk.pts = is.video_clk.pts ∧
      (stream_toggle_pause is t_timer t_get t_set).video_clk.pts_drift = is.video_clk.pts_drift ∧
      (stream_toggle_pause is t_timer t_get t_set).video_clk.last_updated =
        is.video_clk.last_updated ∧
      (stream_toggle_pause is t_timer t_get t_set).video_clk.serial = is.video_clk.serial ∧
      (stream_toggle_pause is t_timer t_get t_set).audio_clk.pts = is.audio_clk.pts ∧
      (stream_toggle_pause is t_timer t_get t_set).audio_clk.pts_drift = is.audio_clk.pts_drift ∧
      (stream_toggle_pause is t_timer t_get t_set).audio_clk.last_updated =
        is.audio_clk.last_updated ∧
      (stream_toggle_pause is t_timer t_get t_set).audio_clk.serial = is.audio_clk.serial) := by
  refine ⟨?_, fun _ _ _ _ => rfl, ?_⟩
  · intro hp
    rw [stream_toggle_pause_resume is t_timer t_get t_set hp]
  · intro hp
    rw [stream_toggle_pause_pause is t_timer t_get t_set hp]
    exact ⟨rfl, rfl, rfl, rfl, rfl, rfl, rfl, rfl, rfl⟩

set_option maxRecDepth 8192 in
/-- Witness of C19: the paused player resumed at wall time 101.0 (its video
clock was set at 100.0, so `frame_timer` goes from 100.0 to 101.0), and the
running player paused. -/
theorem toggle_pause_frame_timer_witness :
    (paused_player.paused ≠ 0 ∧
      (stream_toggle_pause paused_player d_101 d_101 d_101).frame_timer =
        paused_player.frame_timer.add (d_101.sub paused_player.video_clk.last_updated) ∧
      paused_player.frame_timer.add (d_101.sub paused_player.video_clk.last_updated) = d_101) ∧
    (running_player.paused = 0 ∧
      (stream_toggle_pause running_player d_101 d_101 d_101).frame_timer =
        running_player.frame_timer ∧
      (stream_toggle_pause running_player d_101 d_101 d_101).video_clk.pts =
        running_player.video_clk.pts) :=
  ⟨⟨by decide, (toggle_pause_frame_timer paused_player d_101 d_101 d_101).1 (by decide),
    by decide⟩,
   ⟨by decide,
    ((toggle_pause_frame_timer running_player d_101 d_101 d_101).2.2 (by decide)).1,
    ((toggle_pause_frame_timer running_player d_101 d_101 d_101).2.2 (by decide)).2.1⟩⟩

set_option maxRecDepth 8192 in
/-- C20, counterexample: the paused player's video clock, whose serial is the
queue's, reads its stored pts 0.1 while paused; read right after a resume at
wall time 1000000.0, at that wall time, it gives 0.09999999997671694. -/
theorem resume_jump_counterexample :
    paused_player.paused ≠ 0 ∧ paused_player.video_clk.paused ≠ 0 ∧
      paused_player.deref paused_player.video_clk.queue_serial =
        paused_player.video_clk.serial ∧
      get_clock paused_player.video_clk
        (paused_player.deref paused_player.video_clk.queue_serial) d_1e6 = d_0_1 ∧
      get_clock (stream_toggle_pause paused_player d_1e6 d_1e6 d_1e6).video_clk
        ((stream_toggle_pause paused_player d_1e6 d_1e6 d_1e6).deref
          (stream_toggle_pause paused_player d_1e6 d_1e6 d_1e6).video_clk.queue_serial) d_1e6 =
        Double.fin false 7205759402115072 (-56) ∧
      Double.fin false 7205759402115072 (-56) ≠ d_0_1 := by
  decide

/-- C20, amended: for every paused player state whose video clock is paused
and has the serial of its queue, `get_clock(video_clk)` returns the stored
pts while paused, and read right after the resuming `stream_toggle_pause`
call, at the wall time `t` of that call, it returns `(pts - t) + t` in
binary64 arithmetic: the frozen value up to the rounding of these two
operations, however long the pause lasted. -/
theorem resume_clock_value (is : player_stat_t) (t : Double) (hp : is.paused ≠ 0)
    (hvp : is.video_clk.paused ≠ 0)
    (hser : is.deref is.video_clk.queue_serial = is.video_clk.serial) :
    get_clock is.video_clk (is.deref is.video_clk.queue_serial) t = is.video_clk.pts ∧
    get_clock (stream_toggle_pause is t t t).video_clk
        ((stream_toggle_pause is t t t).deref (stream_toggle_pause is t t t).video_clk.queue_serial)
        t =
      (is.video_clk.pts.sub t).add t := by
  have hbefore : get_clock is.video_clk (is.deref is.video_clk.queue_serial) t =
      is.video_clk.pts := get_clock_paused _ _ _ hser hvp
  refine ⟨hbefore, ?_⟩
  rw [stream_toggle_pause_resume is t t t hp, hbefore]
  have hl : lnot is.paused = 0 := by simp [lnot, hp]
  apply (get_clock_running _ _ _ _ _).trans
  · rfl
  · cases hq : is.video_clk.queue_serial <;> rw [hq] at hser <;> simpa [player_stat_t.deref, set_clock, set_clock_at, hq] using hser
  · exact hl

set_option maxRecDepth 8192 in
/-- Witness of C20 (amended): the player paused at pts 5.0, resumed at wall
time 101.0, where `(5.0 - 101.0) + 101.0` is 5.0. -/
theorem resume_clock_value_witness :
    (paused_player_5.paused ≠ 0 ∧ paused_player_5.video_clk.paused ≠ 0 ∧
      paused_player_5.deref paused_player_5.video_clk.queue_serial =
        paused_player_5.video_clk.serial) ∧
    (get_clock paused_player_5.video_clk
        (paused_player_5.deref paused_player_5.video_clk.queue_serial) d_101 =
        paused_player_5.video_clk.pts ∧
      get_clock (stream_toggle_pause paused_player_5 d_101 d_101 d_101).video_clk
        ((stream_toggle_pause paused_player_5 d_101 d_101 d_101).deref
          (stream_toggle_pause paused_player_5 d_101 d_101 d_101).video_clk.queue_serial)
        d_101 =
        (paused_player_5.video_clk.pts.sub d_101).add d_101) ∧
    (paused_player_5.video_clk.pts.sub d_101).add d_101 = d_5 :=
  ⟨by decide, resume_clock_value paused_player_5 d_101 (by decide) (by decide) (by decide),
   by decide⟩

end SimpleFFplay
